import Mathlib

/-!
Verification of the refmd collaborative document engine against its design
specification.  The definitions below are a shallow embedding of the Rust
sources under `src/api/src`:

* `application/services/plugins/asset_signer.rs` (HMAC-signed asset URLs),
* `presentation/http/plugins.rs` (asset HTTP handler and path validation),
* `application/services/realtime/snapshot.rs` (snapshot service),
* `infrastructure/realtime/hub.rs` (hub persistence pipeline, apply_snapshot),
* `infrastructure/realtime/utils.rs` (edit guard and frame analysis).

Bytes are modelled as `Nat` values below 256, machine integers as `Nat`/`Int`
with explicit wrapping where the Rust code can overflow, and the external
stores (update log, snapshot store, archive store, file storage) as explicit
state records whose operations follow the port contracts of the design
document (those adapters live outside the provided sources).
-/

namespace RefMd

/-! ## Basic list helpers -/

/-- Concatenation of a list of lists. -/
def concatAll {α : Type} : List (List α) → List α
  | [] => []
  | l :: ls => l ++ concatAll ls

/-! ## SHA-256 (the `sha2` crate primitive used by the signer)

Words are `Nat` values kept below `2 ^ 32` by explicit reduction. -/

/-- 32-bit truncation. -/
def m32 (x : Nat) : Nat := x % 4294967296

/-- 32-bit addition. -/
def add32 (a b : Nat) : Nat := m32 (a + b)

/-- Right rotation of a 32-bit word. -/
def rotr32 (n x : Nat) : Nat := x / 2 ^ n + x % 2 ^ n * 2 ^ (32 - n)

/-- SHA-256 round constants (FIPS 180-4, in decimal). -/
def shaK : List Nat :=
  [1116352408, 1899447441, 3049323471, 3921009573, 961987163, 1508970993,
   2453635748, 2870763221, 3624381080, 310598401, 607225278, 1426881987,
   1925078388, 2162078206, 2614888103, 3248222580, 3835390401, 4022224774,
   264347078, 604807628, 770255983, 1249150122, 1555081692, 1996064986,
   2554220882, 2821834349, 2952996808, 3210313671, 3336571891, 3584528711,
   113926993, 338241895, 666307205, 773529912, 1294757372, 1396182291,
   1695183700, 1986661051, 2177026350, 2456956037, 2730485921, 2820302411,
   3259730800, 3345764771, 3516065817, 3600352804, 4094571909, 275423344,
   430227734, 506948616, 659060556, 883997877, 958139571, 1322822218,
   1537002063, 1747873779, 1955562222, 2024104815, 2227730452, 2361852424,
   2428436474, 2756734187, 3204031479, 3329325298]

/-- SHA-256 initial hash state (FIPS 180-4, in decimal). -/
def shaH0 : List Nat :=
  [1779033703, 3144134277, 1013904242, 2773480762,
   1359893119, 2600822924, 528734635, 1541459225]

/-- Small-sigma-0 message schedule function. -/
def ssig0 (x : Nat) : Nat := Nat.xor (Nat.xor (rotr32 7 x) (rotr32 18 x)) (x / 2 ^ 3)

/-- Small-sigma-1 message schedule function. -/
def ssig1 (x : Nat) : Nat := Nat.xor (Nat.xor (rotr32 17 x) (rotr32 19 x)) (x / 2 ^ 10)

/-- Big-sigma-0 compression function. -/
def bsig0 (x : Nat) : Nat := Nat.xor (Nat.xor (rotr32 2 x) (rotr32 13 x)) (rotr32 22 x)

/-- Big-sigma-1 compression function. -/
def bsig1 (x : Nat) : Nat := Nat.xor (Nat.xor (rotr32 6 x) (rotr32 11 x)) (rotr32 25 x)

/-- Choice function. -/
def chF (e f g : Nat) : Nat := Nat.xor (Nat.land e f) (Nat.land (Nat.xor e 4294967295) g)

/-- Majority function. -/
def majF (a b c : Nat) : Nat :=
  Nat.xor (Nat.xor (Nat.land a b) (Nat.land a c)) (Nat.land b c)

/-- Extend a 16-word block to the 64-word message schedule. -/
def shaExtend : Nat → List Nat → List Nat
  | 0, w => w
  | n + 1, w =>
      let t := add32 (add32 (ssig1 (w.getD (w.length - 2) 0)) (w.getD (w.length - 7) 0))
        (add32 (ssig0 (w.getD (w.length - 15) 0)) (w.getD (w.length - 16) 0))
      shaExtend n (w ++ [t])

/-- One round of the SHA-256 compression function; the state is the list
`[a, b, c, d, e, f, g, h]`. -/
def shaRound (kw : Nat × Nat) (st : List Nat) : List Nat :=
  match st with
  | [a, b, c, d, e, f, g, h] =>
      let t1 := add32 (add32 (add32 h (bsig1 e)) (add32 (chF e f g) kw.1)) kw.2
      let t2 := add32 (bsig0 a) (majF a b c)
      [add32 t1 t2, a, b, c, add32 d t1, e, f, g]
  | other => other

/-- Process one 64-word schedule starting from hash state `hs`. -/
def shaCompress (hs : List Nat) (w : List Nat) : List Nat :=
  let fin := (shaK.zip w).foldl (fun st kw => shaRound kw st) hs
  (hs.zip fin).map fun p => add32 p.1 p.2

/-- Big-endian bytes to 32-bit words. -/
def bytesToWords : List Nat → List Nat
  | a :: b :: c :: d :: rest => (a * 2 ^ 24 + b * 2 ^ 16 + c * 2 ^ 8 + d) :: bytesToWords rest
  | _ => []

/-- Split a byte list into 64-byte chunks (fuel-driven structural recursion). -/
def chunks64 : Nat → List Nat → List (List Nat)
  | 0, _ => []
  | _ + 1, [] => []
  | fuel + 1, l => l.take 64 :: chunks64 fuel (l.drop 64)

/-- SHA-256 padding: append `0x80`, zeros and the 64-bit big-endian bit length. -/
def shaPad (msg : List Nat) : List Nat :=
  let len := msg.length
  let zeros := (64 + 55 - len % 64) % 64
  let bits := len * 8 % 2 ^ 64
  msg ++ 0x80 :: List.replicate zeros 0 ++
    [bits / 2 ^ 56 % 256, bits / 2 ^ 48 % 256, bits / 2 ^ 40 % 256, bits / 2 ^ 32 % 256,
     bits / 2 ^ 24 % 256, bits / 2 ^ 16 % 256, bits / 2 ^ 8 % 256, bits % 256]

/-- 32-bit words to big-endian bytes. -/
def wordsToBytes (ws : List Nat) : List Nat :=
  concatAll (ws.map fun w => [w / 2 ^ 24 % 256, w / 2 ^ 16 % 256, w / 2 ^ 8 % 256, w % 256])

/-- SHA-256 digest of a byte list. -/
def sha256 (msg : List Nat) : List Nat :=
  let padded := shaPad msg
  let blocks := chunks64 (padded.length + 1) padded
  wordsToBytes (blocks.foldl (fun hs b => shaCompress hs (shaExtend 48 (bytesToWords b))) shaH0)

/-! ## HMAC-SHA256 (the `hmac` crate, used through `HmacSha256`) -/

/-- Pad or hash the key down to the 64-byte block size. -/
def hmacKeyBlock (key : List Nat) : List Nat :=
  let k0 := if 64 < key.length then sha256 key else key
  k0 ++ List.replicate (64 - k0.length) 0

/-- HMAC-SHA256 of `msg` under `key`. -/
def hmacSha256 (key msg : List Nat) : List Nat :=
  let block := hmacKeyBlock key
  let ipad := block.map (Nat.xor 0x36)
  let opad := block.map (Nat.xor 0x5c)
  sha256 (opad ++ sha256 (ipad ++ msg))

/-! ## base64url without padding (`base64::engine::general_purpose::URL_SAFE_NO_PAD`) -/

/-- The URL-safe base64 alphabet. -/
def b64Alphabet : List Char :=
  "ABCDEFGHIJKLMNOPQRSTUVWXYZabcdefghijklmnopqrstuvwxyz0123456789-_".data

/-- Character of a sextet. -/
def b64Char (s : Nat) : Char := b64Alphabet.getD s 'A'

/-- Index of a character in the alphabet, scanning from `i`. -/
def b64IdxFrom (c : Char) : Nat → List Char → Option Nat
  | _, [] => none
  | i, a :: as => if a == c then some i else b64IdxFrom c (i + 1) as

/-- Sextet of a character (`none` when the character is not in the alphabet). -/
def b64Val (c : Char) : Option Nat := b64IdxFrom c 0 b64Alphabet

/-- Encode bytes as base64url without padding. -/
def b64e : List Nat → List Char
  | [] => []
  | [a] => [b64Char (a / 4), b64Char (a % 4 * 16)]
  | [a, b] => [b64Char (a / 4), b64Char (a % 4 * 16 + b / 16), b64Char (b % 16 * 4)]
  | a :: b :: c :: rest =>
      b64Char (a / 4) :: b64Char (a % 4 * 16 + b / 16) ::
        b64Char (b % 16 * 4 + c / 64) :: b64Char (c % 64) :: b64e rest

/-- Decode base64url without padding.  Mirrors the crate's default behaviour:
no padding accepted, a trailing group of one character and non-zero unused
trailing bits are rejected. -/
def b64d : List Char → Option (List Nat)
  | [] => some []
  | [_] => none
  | [c1, c2] => do
      let v1 ← b64Val c1
      let v2 ← b64Val c2
      if v2 % 16 == 0 then pure [v1 * 4 + v2 / 16] else none
  | [c1, c2, c3] => do
      let v1 ← b64Val c1
      let v2 ← b64Val c2
      let v3 ← b64Val c3
      if v3 % 4 == 0 then pure [v1 * 4 + v2 / 16, v2 % 16 * 16 + v3 / 4] else none
  | c1 :: c2 :: c3 :: c4 :: rest => do
      let v1 ← b64Val c1
      let v2 ← b64Val c2
      let v3 ← b64Val c3
      let v4 ← b64Val c4
      let tail ← b64d rest
      pure ((v1 * 4 + v2 / 16) :: (v2 % 16 * 16 + v3 / 4) :: (v3 % 4 * 64 + v4) :: tail)

/-- String-level base64url encoding. -/
def b64encode (bs : List Nat) : String := String.mk (b64e bs)

/-- String-level base64url decoding. -/
def b64decode (s : String) : Option (List Nat) := b64d s.data

/-! ## UTF-8 encoding (Rust `str::as_bytes`) -/

/-- UTF-8 bytes of one scalar value. -/
def utf8Char (c : Char) : List Nat :=
  let n := c.toNat
  if n < 0x80 then [n]
  else if n < 0x800 then [0xC0 + n / 64, 0x80 + n % 64]
  else if n < 0x10000 then [0xE0 + n / 4096, 0x80 + n / 64 % 64, 0x80 + n % 64]
  else [0xF0 + n / 262144, 0x80 + n / 4096 % 64, 0x80 + n / 64 % 64, 0x80 + n % 64]

/-- UTF-8 bytes of a string. -/
def strBytes (s : String) : List Nat := concatAll (s.data.map utf8Char)

/-! ## Decimal rendering (Rust `Display` for integers) -/

/-- Decimal digits of `n`, most significant first; fuel-driven so that the
recursion is structural. -/
def natDecAux : Nat → Nat → List Nat
  | 0, _ => []
  | fuel + 1, n => if n < 10 then [n] else natDecAux fuel (n / 10) ++ [n % 10]

/-- Decimal digits of a natural number. -/
def natDecDigits (n : Nat) : List Nat := natDecAux (n + 1) n

/-- ASCII digit character. -/
def digitChar (d : Nat) : Char := Char.ofNat (48 + d)

/-- Decimal character rendering of a natural number. -/
def natRepr (n : Nat) : List Char := (natDecDigits n).map digitChar

/-- Rendering of an `i64` (`format!("{}")` in Rust). -/
def intRepr (n : Int) : String :=
  if n < 0 then String.mk ('-' :: natRepr (-n).toNat) else String.mk (natRepr n.toNat)

/-! ## UUIDs (`uuid::Uuid`): a 128-bit value rendered as lowercase
hyphenated hex, `8-4-4-4-12`. -/

/-- A 128-bit opaque document / user identity. -/
def Uuid : Type := { n : Nat // n < 2 ^ 128 }

instance : DecidableEq Uuid := fun a b =>
  match a, b with
  | ⟨x, _⟩, ⟨y, _⟩ =>
    if h : x = y then .isTrue (Subtype.ext h) else .isFalse (fun hc => h (congrArg Subtype.val hc))

/-- Lowercase hex digit character. -/
def hexChar (d : Nat) : Char := "0123456789abcdef".data.getD d '0'

/-- Fixed-width big-endian base-16 digits. -/
def toHexBE : Nat → Nat → List Nat
  | 0, _ => []
  | k + 1, v => toHexBE k (v / 16) ++ [v % 16]

/-- Insert the `8-4-4-4-12` hyphens into 32 hex characters. -/
def insertHyphens (l : List Char) : List Char :=
  l.take 8 ++ '-' :: ((l.drop 8).take 4 ++ '-' ::
    ((l.drop 12).take 4 ++ '-' :: ((l.drop 16).take 4 ++ '-' :: l.drop 20)))

/-- `Uuid::to_string`: lowercase hyphenated rendering. -/
def uuidToString (u : Uuid) : String :=
  String.mk (insertHyphens ((toHexBE 32 u.val).map hexChar))

/-! ## Character-list string utilities (Rust `str` methods) -/

/-- Rust `char::is_whitespace`, restricted to the ASCII whitespace that the
engine's inputs use. -/
def isRustWs (c : Char) : Bool := c.isWhitespace

/-- Rust `str::trim`. -/
def trimChars (l : List Char) : List Char :=
  ((l.dropWhile isRustWs).reverse.dropWhile isRustWs).reverse

/-- The `while let Some(stripped) = cleaned.strip_prefix("./")` loop. -/
def stripDotSlashes : List Char → List Char
  | '.' :: '/' :: rest => stripDotSlashes rest
  | l => l

/-- Rust `str::trim_start_matches('/')`. -/
def dropLeadingSlashes : List Char → List Char
  | '/' :: rest => dropLeadingSlashes rest
  | l => l

/-- Does `pat` occur at the head of the list? -/
def startsWithChars : List Char → List Char → Bool
  | [], _ => true
  | _ :: _, [] => false
  | p :: ps, c :: cs => p == c && startsWithChars ps cs

/-- Rust `str::contains(&str)`: substring occurrence. -/
def hasInfixChars (pat : List Char) : List Char → Bool
  | [] => pat.isEmpty
  | c :: cs => startsWithChars pat (c :: cs) || hasInfixChars pat cs

/-- Split at every occurrence of character `sep` (Rust `str::split(char)`). -/
def splitChar (sep : Char) : List Char → List (List Char)
  | [] => [[]]
  | c :: cs =>
      let r := splitChar sep cs
      if c == sep then [] :: r
      else match r with
        | h :: t => (c :: h) :: t
        | [] => [[c]]

/-! ## Asset signer (`application/services/plugins/asset_signer.rs`) -/

/-- `AssetScope`: a signed asset is either global or owned by a user,
optionally qualified by a share token. -/
inductive AssetScope where
  | Global : AssetScope
  | User (owner_id : Uuid) (share_token : Option String) : AssetScope

/-- Two's-complement wrap into the `i64` range. -/
def wrapI64 (x : Int) : Int := (x + 2 ^ 63) % 2 ^ 64 - 2 ^ 63

/-- Rust `u64 as i64` cast. -/
def u64AsI64 (n : Nat) : Int := wrapI64 ((n % 2 ^ 64 : Nat) : Int)

/-- The expiry computed by `sign_url`: `Utc::now().timestamp() + ttl_secs as i64`. -/
def signExpiresAt (now : Int) (ttl_secs : Nat) : Int := wrapI64 (now + u64AsI64 ttl_secs)

/-- `normalize_asset_path`: trim, strip repeated `./` prefixes, strip leading
`/` characters, trim again.  It never rejects. -/
def normalize_asset_path (path : String) : String :=
  String.mk (trimChars (dropLeadingSlashes (stripDotSlashes (trimChars path.data))))

/-- `build_payload`: the canonical pipe-delimited payload fed to the HMAC. -/
def build_payload (scope : AssetScope) (plugin_id version path : String)
    (expires_at : Int) : String :=
  let parts := match scope with
    | AssetScope.Global => ("global", "", "")
    | AssetScope.User owner share => ("user", uuidToString owner, share.getD "")
  parts.1 ++ "|" ++ parts.2.1 ++ "|" ++ plugin_id ++ "|" ++ version ++ "|" ++ path ++
    "|" ++ intRepr expires_at ++ "|" ++ parts.2.2

/-- `AssetSigner::sign_payload`: base64url-encoded HMAC-SHA256 of the payload. -/
def sign_payload (key : List Nat) (payload : String) : String :=
  b64encode (hmacSha256 key (strBytes payload))

/-- `AssetSigner::verify_payload`: decode the signature and compare the MACs
(`verify_slice` is a constant-time equality). -/
def verify_payload (key : List Nat) (payload : String) (signature : String) : Bool :=
  match b64decode signature with
  | none => false
  | some decoded => hmacSha256 key (strBytes payload) == decoded

/-- The signature minted by `sign_url` for the given parameters. -/
def signSignature (key : List Nat) (scope : AssetScope)
    (plugin_id version relative_path : String) (ttl_secs : Nat) (now : Int) : String :=
  sign_payload key (build_payload scope plugin_id version
    (normalize_asset_path relative_path) (signExpiresAt now ttl_secs))

/-- Uppercase hex digit character (percent encoding uses uppercase). -/
def hexCharUpper (d : Nat) : Char := "0123456789ABCDEF".data.getD d '0'

/-- Is the byte kept verbatim by `urlencoding::encode`?  (ASCII alphanumeric
plus `-`, `.`, `_`, `~`). -/
def isUnreservedByte (b : Nat) : Bool :=
  (48 ≤ b && b ≤ 57) || (65 ≤ b && b ≤ 90) || (97 ≤ b && b ≤ 122) ||
    b == 45 || b == 46 || b == 95 || b == 126

/-- `urlencoding::encode`. -/
def urlEncode (s : String) : String :=
  String.mk (concatAll ((strBytes s).map fun b =>
    if isUnreservedByte b then [Char.ofNat b]
    else ['%', hexCharUpper (b / 16), hexCharUpper (b % 16)]))

/-- `AssetSigner::sign_url`.  Note that it unconditionally produces a URL:
the normalization above never fails. -/
def sign_url (key : List Nat) (scope : AssetScope)
    (plugin_id version relative_path : String) (ttl_secs : Nat) (now : Int) : String :=
  let normalized_path := normalize_asset_path relative_path
  let expires_at := signExpiresAt now ttl_secs
  let payload := build_payload scope plugin_id version normalized_path expires_at
  let signature := sign_payload key payload
  let scope_str := match scope with
    | AssetScope.Global => "global"
    | AssetScope.User _ _ => "user"
  let url := "/api/plugin-assets?scope=" ++ scope_str ++ "&plugin=" ++ urlEncode plugin_id ++
    "&version=" ++ urlEncode version ++ "&path=" ++ urlEncode normalized_path ++
    "&exp=" ++ intRepr expires_at ++ "&sig=" ++ signature
  match scope with
  | AssetScope.Global => url
  | AssetScope.User owner share =>
      url ++ "&owner=" ++ uuidToString owner ++
        (match share with
         | some token => "&share=" ++ urlEncode token
         | none => "")

/-- `AssetSigner::verify_url`. -/
def verify_url (key : List Nat) (scope : AssetScope)
    (plugin_id version relative_path : String) (expires_at : Int)
    (signature : String) (now : Int) : Bool :=
  if expires_at ≤ now then false
  else
    verify_payload key
      (build_payload scope plugin_id version (normalize_asset_path relative_path) expires_at)
      signature

/-! ## Plugin asset HTTP handler helpers (`presentation/http/plugins.rs`) -/

/-- `is_safe_asset_segment`. -/
def is_safe_asset_segment (segment : String) : Bool :=
  !(segment.isEmpty || segment == "." || segment == ".." ||
    segment.data.any fun c => c == '/' || c == '\\' || c == '\x00')

/-- `normalize_manifest_path`: trim, strip repeated `./`, strip leading `/`,
then reject paths that are empty or contain `..` or `\`. -/
def normalize_manifest_path (raw : String) : Option String :=
  let t := dropLeadingSlashes (stripDotSlashes (trimChars raw.data))
  if t.isEmpty || hasInfixChars "..".data t || t.any (fun c => c == '\\') then none
  else some (String.mk t)

/-- `ensure_valid_plugin_id` (`StatusCode` modelled as its numeric value). -/
def ensure_valid_plugin_id (id : String) : Except Nat Unit :=
  if id.isEmpty || 128 < (strBytes id).length then Except.error 400
  else if id.data.all (fun c => c.isAlphanum || c == '-' || c == '_') then Except.ok ()
  else Except.error 400

/-- `ensure_valid_plugin_version`. -/
def ensure_valid_plugin_version (version : String) : Except Nat Unit :=
  if version.isEmpty || 128 < (strBytes version).length then Except.error 400
  else if version.data.all (fun c => c.isAlphanum || c == '-' || c == '_' || c == '.') then
    Except.ok ()
  else Except.error 400

/-- ASCII decimal digit value. -/
def digitVal (c : Char) : Option Nat :=
  if '0' ≤ c && c ≤ '9' then some (c.toNat - 48) else none

/-- Accumulate decimal digits. -/
def parseDigitsAux (acc : Nat) : List Char → Option Nat
  | [] => some acc
  | c :: cs =>
      match digitVal c with
      | some d => parseDigitsAux (acc * 10 + d) cs
      | none => none

/-- Rust `str::parse::<i64>()`: optional sign, at least one digit, i64 range. -/
def parseI64 (s : String) : Option Int :=
  let signed := match s.data with
    | '+' :: rest => (false, rest)
    | '-' :: rest => (true, rest)
    | l => (false, l)
  match signed.2 with
  | [] => none
  | ds =>
      match parseDigitsAux 0 ds with
      | none => none
      | some n =>
          let v : Int := if signed.1 then -(n : Int) else (n : Int)
          if -(2 ^ 63) ≤ v ∧ v < 2 ^ 63 then some v else none

/-- Hex digit value, case-insensitive. -/
def hexVal (c : Char) : Option Nat :=
  if '0' ≤ c && c ≤ '9' then some (c.toNat - 48)
  else if 'a' ≤ c && c ≤ 'f' then some (c.toNat - 87)
  else if 'A' ≤ c && c ≤ 'F' then some (c.toNat - 55)
  else none

/-- Accumulate hex digits. -/
def parseHexAux (acc : Nat) : List Char → Option Nat
  | [] => some acc
  | c :: cs =>
      match hexVal c with
      | some d => parseHexAux (acc * 16 + d) cs
      | none => none

/-- `Uuid::parse_str`, for the simple and hyphenated formats. -/
def parseUuid (s : String) : Option Uuid :=
  let l := s.data
  let hexes : Option (List Char) :=
    if l.length = 32 then some l
    else
      if l.length = 36 ∧ l.getD 8 'x' = '-' ∧ l.getD 13 'x' = '-' ∧
          l.getD 18 'x' = '-' ∧ l.getD 23 'x' = '-' then
        some (l.take 8 ++ (l.drop 9).take 4 ++ (l.drop 14).take 4 ++
          (l.drop 19).take 4 ++ l.drop 24)
      else none
  match hexes with
  | none => none
  | some hs =>
      match parseHexAux 0 hs with
      | none => none
      | some n => some ⟨n % 2 ^ 128, Nat.mod_lt _ (by norm_num)⟩

/-! ## Persistence port state

Modelled from the spec: the SQL adapter behind `DocPersistencePort`
(`SqlxDocPersistenceAdapter`) is not part of the provided sources; its
operations follow the update-log (§4.1) and snapshot-store (§4.2) port
contracts of the design document.  State is for a single document. -/

/-- Association-list update: replace the value under `k`, or append. -/
def upsert {κ ν : Type} [BEq κ] (l : List (κ × ν)) (k : κ) (v : ν) : List (κ × ν) :=
  if (l.lookup k).isSome then l.map (fun e => if e.1 == k then (k, v) else e)
  else l ++ [(k, v)]

/-- Update log (`(seq, bytes)` in insertion order) plus snapshot store
(`(version, bytes)`). -/
structure PersistState where
  updates : List (Int × List Nat)
  snapshots : List (Int × List Nat)
deriving DecidableEq

/-- Modelled from the spec: `latest_snapshot_entry` returns the stored
snapshot with the greatest version. -/
def latestSnapshotEntry (st : PersistState) : Option (Int × List Nat) :=
  st.snapshots.foldl
    (fun acc e =>
      match acc with
      | none => some e
      | some b => if b.1 < e.1 then some e else some b)
    none

/-- Modelled from the spec: `latest_snapshot_version`. -/
def latestSnapshotVersion (st : PersistState) : Option Int :=
  (latestSnapshotEntry st).map Prod.fst

/-- Modelled from the spec: `persist_snapshot(doc, version, bytes)` on the
snapshot store. -/
def persistSnapshotStore (version : Int) (bytes : List Nat) (st : PersistState) : PersistState :=
  { st with snapshots := st.snapshots ++ [(version, bytes)] }

/-- Modelled from the spec: `clear_updates`. -/
def clearUpdatesStore (st : PersistState) : PersistState :=
  { st with updates := [] }

/-- Modelled from the spec: `prune_snapshots(doc, keep)` retains the newest
`keep` records by version. -/
def pruneSnapshotsStore (keep : Int) (st : PersistState) : PersistState :=
  { st with
    snapshots := st.snapshots.filter fun e =>
      ((st.snapshots.filter fun f => e.1 < f.1).length : Int) < keep }

/-- Modelled from the spec: `prune_updates_before(doc, cutoff)` removes
entries with `seq < cutoff`. -/
def pruneUpdatesBeforeStore (cutoff : Int) (st : PersistState) : PersistState :=
  { st with updates := st.updates.filter fun e => cutoff ≤ e.1 }

/-- Modelled from the spec: `append_update_with_seq`. -/
def appendUpdateStore (seq : Int) (bytes : List Nat) (st : PersistState) : PersistState :=
  { st with updates := st.updates ++ [(seq, bytes)] }

/-! ## Snapshot service (`application/services/realtime/snapshot.rs`) -/

/-- `SnapshotPersistOptions`. -/
structure SnapshotPersistOptions where
  clear_updates : Bool := false
  skip_if_unchanged : Bool := false
  prune_snapshots : Option Int := none
  prune_updates_before : Option Int := none

/-- `SnapshotPersistResult`. -/
structure SnapshotPersistResult where
  version : Int
  snapshot_bytes : List Nat
  persisted : Bool
deriving DecidableEq

/-- The three post-persist maintenance operations of `persist_snapshot`,
applied in the order they appear in the source: `clear_updates`, then
`prune_snapshots`, then `prune_updates_before`. -/
def persistMaintenance (options : SnapshotPersistOptions) (st : PersistState) : PersistState :=
  let st1 := if options.clear_updates then clearUpdatesStore st else st
  let st2 := match options.prune_snapshots with
    | some keep => pruneSnapshotsStore keep st1
    | none => st1
  match options.prune_updates_before with
  | some cutoff => pruneUpdatesBeforeStore cutoff st2
  | none => st2

/-- `SnapshotService::persist_snapshot`.  `snapshot_bin` stands for the full
state encoding `encode_state_as_update_v1(&StateVector::default())` of the
live replica, which the service computes first. -/
def persist_snapshot (snapshot_bin : List Nat) (options : SnapshotPersistOptions)
    (st : PersistState) : PersistState × SnapshotPersistResult :=
  let info : Int × Option (List Nat) :=
    if options.skip_if_unchanged then
      match latestSnapshotEntry st with
      | some (version, bytes) => (version, some bytes)
      | none => (0, none)
    else ((latestSnapshotVersion st).getD 0, none)
  if options.skip_if_unchanged ∧ info.2 = some snapshot_bin then
    (persistMaintenance options st, ⟨info.1, snapshot_bin, false⟩)
  else
    let next_version := info.1 + 1
    (persistMaintenance options (persistSnapshotStore next_version snapshot_bin st),
      ⟨next_version, snapshot_bin, true⟩)

/-- `SnapshotArchiveKind`. -/
inductive SnapshotArchiveKind where
  | Manual : SnapshotArchiveKind
  | Automatic : SnapshotArchiveKind
  | Restore : SnapshotArchiveKind

/-- `SnapshotArchiveKind::as_str`. -/
def SnapshotArchiveKind.as_str : SnapshotArchiveKind → String
  | SnapshotArchiveKind.Manual => "manual"
  | SnapshotArchiveKind.Automatic => "auto"
  | SnapshotArchiveKind.Restore => "restore"

/-- `hex::encode` of a SHA-256 digest (`sha256_hex`). -/
def sha256_hex (data : List Nat) : String :=
  String.mk (concatAll ((sha256 data).map fun b => [hexChar (b / 16), hexChar (b % 16)]))

/-- An archive store row (record fields plus the stored snapshot bytes). -/
structure SnapshotArchiveRecord where
  version : Int
  label : String
  notes : Option String
  kind : String
  created_by : Option Uuid
  byte_size : Int
  content_hash : String
  bytes : List Nat

/-- `SnapshotService::archive_snapshot`: compute size and hash, insert into
the archive store (modelled from the spec as an append, §4.3). -/
def archive_snapshot (snapshot_bin : List Nat) (version : Int) (label : String)
    (notes : Option String) (kind : SnapshotArchiveKind) (created_by : Option Uuid)
    (archives : List SnapshotArchiveRecord) :
    List SnapshotArchiveRecord × SnapshotArchiveRecord :=
  let record : SnapshotArchiveRecord :=
    ⟨version, label, notes, kind.as_str, created_by, (snapshot_bin.length : Int),
      sha256_hex snapshot_bin, snapshot_bin⟩
  (archives ++ [record], record)

/-! ## Markdown materialization (`SnapshotService::write_markdown`) -/

/-- The document record returned by the `DocStateReader` port. -/
structure DocRecord where
  title : String
  doc_type : String
  owner_id : Option Uuid

/-- Storage-side state seen by `write_markdown`: the document record, the
resolved on-disk path, the file system (path to UTF-8 contents), and the
fire-and-forget link/tag collaborator calls. -/
structure StorageState where
  record : Option DocRecord
  docPath : String
  files : List (String × String)
  linkEvents : List (Uuid × String)
  tagEvents : List (Uuid × String)

/-- Does the character list end with a newline? -/
def endsWithNl (l : List Char) : Bool :=
  match l.getLast? with
  | some c => c == '\n'
  | none => false

/-- The formatted markdown file: front matter plus contents, with a trailing
newline appended if absent. -/
def mdFileContents (doc_id : Uuid) (title contents : String) : String :=
  let formatted :=
    "---\nid: " ++ uuidToString doc_id ++ "\ntitle: " ++ title ++ "\n---\n\n" ++ contents
  if endsWithNl formatted.data then formatted else formatted ++ "\n"

/-- `SnapshotService::write_markdown`.  `contents` stands for
`extract_markdown(doc)`, the text of the replica's "content" register;
`sync_doc_paths` is best-effort and does not change the modelled state.
Returns the new state and `MarkdownPersistResult.written`. -/
def write_markdown (doc_id : Uuid) (contents : String) (st : StorageState) :
    StorageState × Bool :=
  match st.record with
  | none => (st, false)
  | some record =>
      if record.doc_type == "folder" then (st, false)
      else
        let formatted := mdFileContents doc_id record.title contents
        let should_write :=
          match st.files.lookup st.docPath with
          | some existing => !(existing == formatted)
          | none => true
        let files1 := if should_write then upsert st.files st.docPath formatted else st.files
        let events : List (Uuid × String) × List (Uuid × String) :=
          match record.owner_id with
          | some owner => (st.linkEvents ++ [(owner, contents)], st.tagEvents ++ [(owner, contents)])
          | none => (st.linkEvents, st.tagEvents)
        ({ st with files := files1, linkEvents := events.1, tagEvents := events.2 }, should_write)

/-! ## Hub persistence pipeline (`infrastructure/realtime/hub.rs`) -/

/-- The Hub configuration relevant to the pipeline: the auto-archive
interval (a `Duration`; `0` is `Duration::is_zero`). -/
structure HubPersistConfig where
  auto_archive_interval : Nat

/-- Per-document pipeline state: the in-memory seq counter, the persistence
store, the archive store and the last auto-archive instant. -/
structure HubDocState where
  seq : Int
  persist : PersistState
  archives : List SnapshotArchiveRecord
  last_auto_archive : Option Nat

/-- One iteration of the persistence task: assign the next seq, append to the
update log, and evaluate auto-archive when `seq % 100 == 0` and the interval
is non-zero.  `enc` is the full-state encoding of the room's replica at this
moment, `now` the current instant, `ts` the formatted UTC timestamp used in
the automatic archive label. -/
def hubProcessUpdate (cfg : HubPersistConfig) (enc : List Nat) (now : Nat) (ts : String)
    (st : HubDocState) (bytes : List Nat) : HubDocState :=
  let s := st.seq + 1
  let persist1 := appendUpdateStore s bytes st.persist
  if s % 100 == 0 && cfg.auto_archive_interval ≠ 0 then
    let should_archive :=
      match st.last_auto_archive with
      | some last => !(now - last < cfg.auto_archive_interval)
      | none => true
    if should_archive then
      let pr := persist_snapshot enc { clear_updates := false } persist1
      let ar := archive_snapshot pr.2.snapshot_bytes pr.2.version ("Snapshot " ++ ts) none
        SnapshotArchiveKind.Automatic none st.archives
      { seq := s, persist := pr.1, archives := ar.1, last_auto_archive := some now }
    else { st with seq := s, persist := persist1 }
  else { st with seq := s, persist := persist1 }

/-- Push a sequence of updates through the pipeline. -/
def hubRunUpdates (cfg : HubPersistConfig) (enc : List Nat) (now : Nat) (ts : String)
    (st : HubDocState) (updates : List (List Nat)) : HubDocState :=
  updates.foldl (hubProcessUpdate cfg enc now ts) st

/-! ## `Hub::apply_snapshot` and `Hub::get_content`

The live room's "content" text register is modelled by its character list;
a transaction's encoded update is modelled by the list of text operations it
performed (an empty operation list stands for an empty encoded update). -/

/-- A text operation inside a write transaction. -/
inductive TextOp where
  | remove (offset len : Nat) : TextOp
  | insert (offset : Nat) (text : List Char) : TextOp

/-- `Text::remove_range` / `Text::insert` semantics on the register text. -/
def applyTextOp (l : List Char) : TextOp → List Char
  | TextOp.remove offset len => l.take offset ++ l.drop (offset + len)
  | TextOp.insert offset t => l.take offset ++ t ++ l.drop offset

/-- The hub's room map: document id to the room's content text.  A room
created by `get_or_create` starts from the empty replica (hydration runs
asynchronously afterwards). -/
structure HubRooms where
  rooms : List (String × List Char)

/-- `Hub::apply_snapshot`: under one write transaction, delete the entire
content range, then insert the source text at offset 0; broadcast the encoded
update unless it is empty.  Returns the new room map and the broadcast
payload (`none` when nothing was broadcast). -/
def apply_snapshot (hub : HubRooms) (doc_id : String) (snapshotText : List Char) :
    HubRooms × Option (List TextOp) :=
  let current := (hub.rooms.lookup doc_id).getD []
  let ops :=
    (if current.length ≠ 0 then [TextOp.remove 0 current.length] else []) ++
      (if snapshotText.isEmpty then [] else [TextOp.insert 0 snapshotText])
  let newText := ops.foldl applyTextOp current
  let hub1 : HubRooms := ⟨upsert hub.rooms doc_id newText⟩
  (hub1, if ops.isEmpty then none else some ops)

/-- `Hub::get_content` for a live room (the hydration fallback concerns
documents with no room and is outside this model). -/
def get_content (hub : HubRooms) (doc_id : String) : Option (List Char) :=
  hub.rooms.lookup doc_id

/-! ## Frame analysis and edit guard (`infrastructure/realtime/utils.rs`)

The y-sync wire protocol decoded by `yrs::sync::MessageReader`: a frame is a
sequence of messages, each a varint tag (`0` sync, `1` awareness, `2` auth,
`3` awareness query, otherwise custom) followed by its payload.  lib0 varints
are little-endian 7-bit groups.  `EndOfBuffer` terminates the reader without
an error; any other decode failure is an error. -/

/-- Decoder failures: end of buffer, or a malformed value. -/
inductive PErr where
  | eob : PErr
  | bad : PErr
deriving DecidableEq

/-- lib0 `read_var`: little-endian 7-bit groups, failing with `bad` when the
value exceeds `width` bits. -/
def readVarGo (width : Nat) : List Nat → Nat → Nat → Except PErr (Nat × List Nat)
  | [], _, _ => Except.error PErr.eob
  | b :: rest, shift, acc =>
      let acc := acc + b % 128 * 2 ^ shift
      if b < 128 then Except.ok (acc, rest)
      else if width < shift + 7 then Except.error PErr.bad
      else readVarGo width rest (shift + 7) acc

/-- Read a varint of at most `width` bits. -/
def readVar (width : Nat) (l : List Nat) : Except PErr (Nat × List Nat) :=
  readVarGo width l 0 0

/-- lib0 `read_buf`: varint length followed by that many bytes. -/
def readBuf (l : List Nat) : Except PErr (List Nat × List Nat) := do
  let (len, rest) ← readVar 32 l
  if rest.length < len then Except.error PErr.eob
  else Except.ok (rest.take len, rest.drop len)

/-- RFC 3629 UTF-8 validity (Rust `str::from_utf8` succeeding). -/
def validUtf8 : List Nat → Bool
  | [] => true
  | b :: rest =>
      if b < 0x80 then validUtf8 rest
      else if 0xC2 ≤ b && b ≤ 0xDF then
        match rest with
        | c :: r => (0x80 ≤ c && c ≤ 0xBF) && validUtf8 r
        | [] => false
      else if b == 0xE0 then
        match rest with
        | c :: d :: r => (0xA0 ≤ c && c ≤ 0xBF) && (0x80 ≤ d && d ≤ 0xBF) && validUtf8 r
        | _ => false
      else if (0xE1 ≤ b && b ≤ 0xEC) || b == 0xEE || b == 0xEF then
        match rest with
        | c :: d :: r =>
            (0x80 ≤ c && c ≤ 0xBF) && (0x80 ≤ d && d ≤ 0xBF) && validUtf8 r
        | _ => false
      else if b == 0xED then
        match rest with
        | c :: d :: r => (0x80 ≤ c && c ≤ 0x9F) && (0x80 ≤ d && d ≤ 0xBF) && validUtf8 r
        | _ => false
      else if b == 0xF0 then
        match rest with
        | c :: d :: e :: r =>
            (0x90 ≤ c && c ≤ 0xBF) && (0x80 ≤ d && d ≤ 0xBF) && (0x80 ≤ e && e ≤ 0xBF) &&
              validUtf8 r
        | _ => false
      else if 0xF1 ≤ b && b ≤ 0xF3 then
        match rest with
        | c :: d :: e :: r =>
            (0x80 ≤ c && c ≤ 0xBF) && (0x80 ≤ d && d ≤ 0xBF) && (0x80 ≤ e && e ≤ 0xBF) &&
              validUtf8 r
        | _ => false
      else if b == 0xF4 then
        match rest with
        | c :: d :: e :: r =>
            (0x80 ≤ c && c ≤ 0x8F) && (0x80 ≤ d && d ≤ 0xBF) && (0x80 ≤ e && e ≤ 0xBF) &&
              validUtf8 r
        | _ => false
      else false

/-- `StateVector::decode_v1` entry loop: `count` pairs of client (u64 varint)
and clock (u32 varint). -/
def decodeSVEntries : Nat → List Nat → Except PErr Unit
  | 0, _ => Except.ok ()
  | n + 1, l => do
      let (_, r1) ← readVar 64 l
      let (_, r2) ← readVar 32 r1
      decodeSVEntries n r2

/-- `StateVector::decode_v1` on an extracted buffer. -/
def decodeStateVector (buf : List Nat) : Except PErr Unit := do
  let (count, r) ← readVar 32 buf
  decodeSVEntries count r

/-- `AwarenessUpdate` entry loop: client (u64 varint), clock (u32 varint) and
a JSON string (buffer that must be valid UTF-8). -/
def decodeAwarenessEntries : Nat → List Nat → Except PErr Unit
  | 0, _ => Except.ok ()
  | n + 1, l => do
      let (_, r1) ← readVar 64 l
      let (_, r2) ← readVar 32 r1
      let (sbuf, r3) ← readBuf r2
      if validUtf8 sbuf then decodeAwarenessEntries n r3 else Except.error PErr.bad

/-- `AwarenessUpdate::decode_v1` on an extracted buffer. -/
def decodeAwareness (buf : List Nat) : Except PErr Unit := do
  let (count, r) ← readVar 32 buf
  decodeAwarenessEntries count r

/-- Classification of one decoded message for `analyse_frame`. -/
inductive MsgKind where
  | updateLike : MsgKind
  | awareness : MsgKind
  | other : MsgKind

/-- `SyncMessage::decode`: sub-tag 0 is step-1 (a state vector), 1 is step-2,
2 is an update; anything else is malformed. -/
def decodeSyncMessage (l : List Nat) : Except PErr (MsgKind × List Nat) := do
  let (tag, r1) ← readVar 8 l
  match tag with
  | 0 => do
      let (buf, r2) ← readBuf r1
      let _ ← decodeStateVector buf
      Except.ok (MsgKind.other, r2)
  | 1 => do
      let (_, r2) ← readBuf r1
      Except.ok (MsgKind.updateLike, r2)
  | 2 => do
      let (_, r2) ← readBuf r1
      Except.ok (MsgKind.updateLike, r2)
  | _ => Except.error PErr.bad

/-- `Message::decode`. -/
def decodeMessage (l : List Nat) : Except PErr (MsgKind × List Nat) := do
  let (tag, r1) ← readVar 8 l
  match tag with
  | 0 => decodeSyncMessage r1
  | 1 => do
      let (buf, r2) ← readBuf r1
      let _ ← decodeAwareness buf
      Except.ok (MsgKind.awareness, r2)
  | 2 => do
      let (flag, r2) ← readVar 8 r1
      if flag == 0 then do
        let (sbuf, r3) ← readBuf r2
        if validUtf8 sbuf then Except.ok (MsgKind.other, r3) else Except.error PErr.bad
      else Except.ok (MsgKind.other, r2)
  | 3 => Except.ok (MsgKind.other, r1)
  | _ => do
      let (_, r2) ← readBuf r1
      Except.ok (MsgKind.other, r2)

/-- `FrameSummary`. -/
structure FrameSummary where
  has_update : Bool := false
  has_awareness : Bool := false
deriving DecidableEq

instance {ε α : Type} [DecidableEq ε] [DecidableEq α] : DecidableEq (Except ε α) :=
  fun a b =>
    match a, b with
    | Except.ok x, Except.ok y =>
        if h : x = y then Decidable.isTrue (by rw [h])
        else Decidable.isFalse (fun hc => h (Except.ok.inj hc))
    | Except.error x, Except.error y =>
        if h : x = y then Decidable.isTrue (by rw [h])
        else Decidable.isFalse (fun hc => h (Except.error.inj hc))
    | Except.ok _, Except.error _ => Decidable.isFalse (fun hc => Except.noConfusion hc)
    | Except.error _, Except.ok _ => Decidable.isFalse (fun hc => Except.noConfusion hc)

/-- The `while let Some(message) = reader.next()` loop of `analyse_frame`:
`EndOfBuffer` cleanly terminates the reader; any other failure aborts the
analysis with an error. -/
def analyseLoop : Nat → List Nat → FrameSummary → Except Unit FrameSummary
  | 0, _, s => Except.ok s
  | fuel + 1, l, s =>
      match decodeMessage l with
      | Except.error PErr.eob => Except.ok s
      | Except.error PErr.bad => Except.error ()
      | Except.ok (k, rest) =>
          let s1 := match k with
            | MsgKind.updateLike => { s with has_update := true }
            | MsgKind.awareness => { s with has_awareness := true }
            | MsgKind.other => s
          analyseLoop fuel rest s1

/-- `analyse_frame`. -/
def analyse_frame (frame : List Nat) : Except Unit FrameSummary :=
  analyseLoop (frame.length + 1) frame {}

/-- Does the edit guard forward this inbound frame?  (`GuardedStream::poll_next`
with the room's `editable` flag.) -/
def guardPasses (editable : Bool) (frame : List Nat) : Bool :=
  if editable then true
  else
    match analyse_frame frame with
    | Except.ok summary => !summary.has_update
    | Except.error _ => true

/-- The frames the guard forwards out of a polled sequence of stream items
(`Err` items are always forwarded). -/
def guardFilter (editable : Bool) (items : List (Except Unit (List Nat))) :
    List (Except Unit (List Nat)) :=
  items.filter fun it =>
    match it with
    | Except.ok frame => guardPasses editable frame
    | Except.error _ => true

/-! ## `get_plugin_asset` (`presentation/http/plugins.rs`) -/

/-- The query parameters of the asset request. -/
structure AssetQuery where
  scope : Option String
  plugin : Option String
  version : Option String
  path : Option String
  exp : Option String
  sig : Option String
  owner : Option String
  share : Option String

/-- The `match scope_raw` arm of the handler: resolve the scope and the
optional owner id, or fail with `400`. -/
def resolveScope (scope_raw : String) (params : AssetQuery) :
    Except Nat (AssetScope × Option Uuid) :=
  if scope_raw = "global" then Except.ok (AssetScope.Global, (none : Option Uuid))
  else if scope_raw = "user" then
    match params.owner with
    | none => Except.error 400
    | some owner_str =>
        match parseUuid owner_str with
        | none => Except.error 400
        | some owner_id =>
            Except.ok (AssetScope.User owner_id params.share, some owner_id)
  else Except.error 400

/-- `get_plugin_asset` up to the single `fs::read`: returns the HTTP error
status, or the path (as components) of the file that is read.  `globalRoot`
and `userRoot` are the plugin store roots; path components model `PathBuf`
segments.  Each early `return Err(status)` of the Rust handler is a
matching `Except.error`. -/
def get_plugin_asset (key : List Nat) (now : Int) (globalRoot : List String)
    (userRoot : Uuid → List String) (params : AssetQuery) : Except Nat (List String) :=
  match params.scope with
  | none => Except.error 400
  | some scope_raw =>
  match params.plugin with
  | none => Except.error 400
  | some plugin_id =>
  match ensure_valid_plugin_id plugin_id with
  | Except.error e => Except.error e
  | Except.ok _ =>
  match params.version with
  | none => Except.error 400
  | some version =>
  match ensure_valid_plugin_version version with
  | Except.error e => Except.error e
  | Except.ok _ =>
  match params.path with
  | none => Except.error 400
  | some path =>
  match normalize_manifest_path path with
  | none => Except.error 400
  | some normalized_path =>
  match params.exp with
  | none => Except.error 400
  | some exp =>
  match parseI64 exp with
  | none => Except.error 400
  | some exp_i64 =>
  match params.sig with
  | none => Except.error 400
  | some sig =>
  match resolveScope scope_raw params with
  | Except.error e => Except.error e
  | Except.ok scopeOwner =>
  if verify_url key scopeOwner.1 plugin_id version normalized_path exp_i64 sig now then
    let segments := (splitChar '/' normalized_path.data).map String.mk
    if segments.all is_safe_asset_segment then
      if segments.isEmpty then Except.error 404
      else
        let base_dir := match scopeOwner.2 with
          | none => globalRoot ++ [plugin_id, version]
          | some owner_id => userRoot owner_id ++ [plugin_id, version]
        if base_dir.isPrefixOf (base_dir ++ segments) then Except.ok (base_dir ++ segments)
        else Except.error 403
    else Except.error 400
  else Except.error 401

/-! ## Auxiliary definitions used by the verification -/

/-- Value of a big-endian decimal digit list. -/
def fromDec (l : List Nat) : Nat := l.foldl (fun a d => a * 10 + d) 0

/-- Value of a big-endian hex digit list. -/
def fromHexD (l : List Nat) : Nat := l.foldl (fun a d => a * 16 + d) 0

/-- The MAC that `verify_url` recomputes for the given request parameters
(`relative_path` is normalized inside). -/
def payloadMac (key : List Nat) (scope : AssetScope) (plugin_id version relative_path : String)
    (expires_at : Int) : List Nat :=
  hmacSha256 key
    (strBytes (build_payload scope plugin_id version (normalize_asset_path relative_path)
      expires_at))

/-- Modelled from the spec: the pipe-delimited canonical form
`"{scope_tag}|{owner?}|{plugin_id}|{version}|{normalized_path}|{exp_unix}|{share_token?}"`
(§3) as a join of its seven components. -/
def joinPipe : List String → String
  | [] => ""
  | [x] => x
  | x :: xs => x ++ "|" ++ joinPipe xs

/-! ## General helper lemmas -/

theorem strDataInj {s t : String} (h : s.data = t.data) : s = t := String.ext h

theorem strPeel (s : String) {l m : List Char} (h : s.data ++ l = s.data ++ m) : l = m :=
  List.append_cancel_left h

theorem strTail {x y : String} (R : List Char) (h : x.data ++ R = y.data ++ R) : x = y :=
  strDataInj (List.append_cancel_right h)

/-! ### Decimal rendering is injective -/

theorem fromDec_append (l : List Nat) (d : Nat) :
    fromDec (l ++ [d]) = fromDec l * 10 + d := by
  simp [fromDec, List.foldl_append]

theorem fromDec_natDecAux : ∀ fuel n, n < fuel → fromDec (natDecAux fuel n) = n := by
  intro fuel
  induction fuel with
  | zero => intro n h; omega
  | succ fuel ih =>
      intro n h
      by_cases h10 : n < 10
      · simp [natDecAux, h10, fromDec]
      · have hdiv : n / 10 < fuel := by omega
        simp only [natDecAux, if_neg h10]
        rw [fromDec_append, ih _ hdiv]
        omega

theorem natDecAux_lt : ∀ fuel n d, d ∈ natDecAux fuel n → d < 10 := by
  intro fuel
  induction fuel with
  | zero => intro n d hd; simp [natDecAux] at hd
  | succ fuel ih =>
      intro n d hd
      by_cases h10 : n < 10
      · simp [natDecAux, h10] at hd; omega
      · simp only [natDecAux, if_neg h10, List.mem_append, List.mem_singleton] at hd
        rcases hd with hd | hd
        · exact ih _ _ hd
        · omega

theorem natDecAux_ne_nil : ∀ fuel n, natDecAux (fuel + 1) n ≠ [] := by
  intro fuel n
  by_cases h10 : n < 10 <;> simp [natDecAux, h10]

theorem map_inj_bounded (f : Nat → Char) (bound : Nat)
    (hf : ∀ d, d < bound → ∀ e, e < bound → f d = f e → d = e) :
    ∀ l1 l2 : List Nat, (∀ d ∈ l1, d < bound) → (∀ d ∈ l2, d < bound) →
      l1.map f = l2.map f → l1 = l2 := by
  intro l1
  induction l1 with
  | nil => intro l2 _ _ h; cases l2 <;> simp_all
  | cons a as ih =>
      intro l2 h1 h2 h
      cases l2 with
      | nil => simp at h
      | cons b bs =>
          simp only [List.map_cons, List.cons.injEq] at h
          have hab := hf a (h1 a (by simp)) b (h2 b (by simp)) h.1
          subst hab
          have := ih bs (fun d hd => h1 d (by simp [hd])) (fun d hd => h2 d (by simp [hd])) h.2
          rw [this]

theorem digitChar_inj : ∀ d, d < 10 → ∀ e, e < 10 → digitChar d = digitChar e → d = e := by
  decide

theorem digitChar_ne_dash : ∀ d, d < 10 → ¬ digitChar d = '-' := by decide

theorem natRepr_inj {a b : Nat} (h : natRepr a = natRepr b) : a = b := by
  have hd := map_inj_bounded digitChar 10 digitChar_inj (natDecDigits a) (natDecDigits b)
    (fun d hd => natDecAux_lt _ _ _ hd) (fun d hd => natDecAux_lt _ _ _ hd) h
  have ha := fromDec_natDecAux (a + 1) a (by omega)
  have hb := fromDec_natDecAux (b + 1) b (by omega)
  calc a = fromDec (natDecDigits a) := ha.symm
    _ = fromDec (natDecDigits b) := by rw [show natDecDigits a = natDecDigits b from hd]
    _ = b := hb

theorem natRepr_head_not_dash (n : Nat) : ¬ '-' :: ([] : List Char) <+: natRepr n → True := by
  intro _; trivial

theorem intRepr_inj {a b : Int} (h : intRepr a = intRepr b) : a = b := by
  have hd := congrArg String.data h
  by_cases ha : a < 0 <;> by_cases hb : b < 0 <;>
    simp only [intRepr, if_pos, if_neg, ha, hb, if_true, if_false] at hd
  · -- both negative
    simp only [List.cons.injEq] at hd
    have := natRepr_inj hd.2
    omega
  · -- a < 0, b ≥ 0: the head of a decimal rendering is a digit, not '-'
    exfalso
    unfold natRepr at hd
    rcases hq : natDecDigits b.toNat with _ | ⟨d, ds⟩
    · exact natDecAux_ne_nil _ _ hq
    · rw [hq] at hd
      simp only [List.map_cons, List.cons.injEq] at hd
      have hdlt : d < 10 := natDecAux_lt (b.toNat + 1) b.toNat d
        (by show d ∈ natDecDigits b.toNat; rw [hq]; simp)
      exact digitChar_ne_dash d hdlt hd.1.symm
  · -- a ≥ 0, b < 0: symmetric
    exfalso
    unfold natRepr at hd
    rcases hq : natDecDigits a.toNat with _ | ⟨d, ds⟩
    · exact natDecAux_ne_nil _ _ hq
    · rw [hq] at hd
      simp only [List.map_cons, List.cons.injEq] at hd
      have hdlt : d < 10 := natDecAux_lt (a.toNat + 1) a.toNat d
        (by show d ∈ natDecDigits a.toNat; rw [hq]; simp)
      exact digitChar_ne_dash d hdlt hd.1
  · -- both nonnegative
    have := natRepr_inj hd
    omega

/-! ### UUID rendering is injective -/

theorem toHexBE_length : ∀ k v, (toHexBE k v).length = k := by
  intro k
  induction k with
  | zero => intro v; simp [toHexBE]
  | succ k ih => intro v; simp [toHexBE, ih]

theorem toHexBE_lt : ∀ k v d, d ∈ toHexBE k v → d < 16 := by
  intro k
  induction k with
  | zero => intro v d hd; simp [toHexBE] at hd
  | succ k ih =>
      intro v d hd
      simp only [toHexBE, List.mem_append, List.mem_singleton] at hd
      rcases hd with hd | hd
      · exact ih _ _ hd
      · omega

theorem toHexBE_inj : ∀ k v w, v < 16 ^ k → w < 16 ^ k → toHexBE k v = toHexBE k w → v = w := by
  intro k
  induction k with
  | zero => intro v w hv hw _; simp at hv hw; omega
  | succ k ih =>
      intro v w hv hw h
      simp only [toHexBE] at h
      have hlen : (toHexBE k (v / 16)).length = (toHexBE k (w / 16)).length := by
        rw [toHexBE_length, toHexBE_length]
      obtain ⟨h1, h2⟩ := List.append_inj h hlen
      have hmod : v % 16 = w % 16 := by simpa using h2
      have hp : (16 : Nat) ^ (k + 1) = 16 ^ k * 16 := pow_succ 16 k
      have hv' : v / 16 < 16 ^ k := by omega
      have hw' : w / 16 < 16 ^ k := by omega
      have := ih _ _ hv' hw' h1
      omega

theorem hexChar_inj : ∀ d, d < 16 → ∀ e, e < 16 → hexChar d = hexChar e → d = e := by decide

theorem hexChar_ne_dash : ∀ d, d < 16 → ¬ hexChar d = '-' := by decide

theorem filter_no_dash (m : List Char) (hm : ∀ c ∈ m, ¬ c = '-') :
    m.filter (fun c => !(c == '-')) = m := by
  apply List.filter_eq_self.mpr
  intro a ha
  simpa using hm a ha

theorem filter_insertHyphens (l : List Char) (h : ∀ c ∈ l, ¬ c = '-') :
    (insertHyphens l).filter (fun c => !(c == '-')) = l := by
  have e20 : (l.drop 16).take 4 ++ l.drop 20 = l.drop 16 := by
    have : l.drop 20 = (l.drop 16).drop 4 := by rw [List.drop_drop]
    rw [this, List.take_append_drop]
  have e16 : (l.drop 12).take 4 ++ l.drop 16 = l.drop 12 := by
    have : l.drop 16 = (l.drop 12).drop 4 := by rw [List.drop_drop]
    rw [this, List.take_append_drop]
  have e12 : (l.drop 8).take 4 ++ l.drop 12 = l.drop 8 := by
    have : l.drop 12 = (l.drop 8).drop 4 := by rw [List.drop_drop]
    rw [this, List.take_append_drop]
  have e8 : l.take 8 ++ l.drop 8 = l := List.take_append_drop 8 l
  simp only [insertHyphens, List.filter_append, List.filter_cons]
  norm_num
  rw [filter_no_dash _ (fun c hc => h c (List.take_subset _ _ hc)),
    filter_no_dash _ (fun c hc => h c (List.drop_subset _ _ (List.take_subset _ _ hc))),
    filter_no_dash _ (fun c hc => h c (List.drop_subset _ _ (List.take_subset _ _ hc))),
    filter_no_dash _ (fun c hc => h c (List.drop_subset _ _ (List.take_subset _ _ hc))),
    filter_no_dash _ (fun c hc => h c (List.drop_subset _ _ hc))]
  rw [e20, e16, e12, e8]

theorem uuidToString_inj {u v : Uuid} (h : uuidToString u = uuidToString v) : u = v := by
  have hd : insertHyphens ((toHexBE 32 u.val).map hexChar) =
      insertHyphens ((toHexBE 32 v.val).map hexChar) := congrArg String.data h
  have hmu : ∀ c ∈ (toHexBE 32 u.val).map hexChar, ¬ c = '-' := by
    intro c hc
    simp only [List.mem_map] at hc
    obtain ⟨d, hd', rfl⟩ := hc
    exact hexChar_ne_dash d (toHexBE_lt _ _ _ hd')
  have hmv : ∀ c ∈ (toHexBE 32 v.val).map hexChar, ¬ c = '-' := by
    intro c hc
    simp only [List.mem_map] at hc
    obtain ⟨d, hd', rfl⟩ := hc
    exact hexChar_ne_dash d (toHexBE_lt _ _ _ hd')
  have h2 : (toHexBE 32 u.val).map hexChar = (toHexBE 32 v.val).map hexChar := by
    have := congrArg (List.filter (fun c => !(c == '-'))) hd
    rwa [filter_insertHyphens _ hmu, filter_insertHyphens _ hmv] at this
  have h3 : toHexBE 32 u.val = toHexBE 32 v.val :=
    map_inj_bounded hexChar 16 hexChar_inj _ _ (fun d hd => toHexBE_lt _ _ _ hd)
      (fun d hd => toHexBE_lt _ _ _ hd) h2
  have hpow : (16 : Nat) ^ 32 = 2 ^ 128 := by norm_num
  have h4 : u.val = v.val :=
    toHexBE_inj 32 _ _ (by rw [hpow]; exact u.property) (by rw [hpow]; exact v.property) h3
  exact Subtype.ext h4

/-! ### base64url round trip -/

theorem b64Val_b64Char : ∀ s, s < 64 → b64Val (b64Char s) = some s := by decide

theorem b64d_b64e : ∀ bs : List Nat, (∀ b ∈ bs, b < 256) → b64d (b64e bs) = some bs := by
  intro bs
  induction bs using b64e.induct with
  | case1 =>
      intro _
      rfl
  | case2 a =>
      intro h
      have ha : a < 256 := h a (by simp)
      have h1 := b64Val_b64Char (a / 4) (by omega)
      have h2 := b64Val_b64Char (a % 4 * 16) (by omega)
      have h3 : a % 4 * 16 % 16 = 0 := by omega
      simp [b64e, b64d, h1, h2, h3]
      omega
  | case3 a b =>
      intro h
      have ha : a < 256 := h a (by simp)
      have hb : b < 256 := h b (by simp)
      have h1 := b64Val_b64Char (a / 4) (by omega)
      have h2 := b64Val_b64Char (a % 4 * 16 + b / 16) (by omega)
      have h3 := b64Val_b64Char (b % 16 * 4) (by omega)
      have h4 : b % 16 * 4 % 4 = 0 := by omega
      simp [b64e, b64d, h1, h2, h3, h4]
      constructor
      · omega
      · omega
  | case4 a b c rest ih =>
      intro h
      have ha : a < 256 := h a (by simp)
      have hb : b < 256 := h b (by simp)
      have hc : c < 256 := h c (by simp)
      have h1 := b64Val_b64Char (a / 4) (by omega)
      have h2 := b64Val_b64Char (a % 4 * 16 + b / 16) (by omega)
      have h3 := b64Val_b64Char (b % 16 * 4 + c / 64) (by omega)
      have h4 := b64Val_b64Char (c % 64) (by omega)
      have hrest := ih (fun x hx => h x (by simp [hx]))
      simp [b64e, b64d, h1, h2, h3, h4, hrest]
      refine ⟨by omega, by omega, by omega⟩

/-! ### Digest bytes are bytes -/

theorem wordsToBytes_lt : ∀ ws : List Nat, ∀ b ∈ wordsToBytes ws, b < 256 := by
  intro ws
  induction ws with
  | nil => intro b hb; simp [wordsToBytes, concatAll] at hb
  | cons w ws ih =>
      intro b hb
      simp only [wordsToBytes, List.map_cons, concatAll, List.mem_append] at hb
      rcases hb with hb | hb
      · simp only [List.mem_cons, List.mem_singleton] at hb
        rcases hb with rfl | rfl | rfl | rfl | hb
        · exact Nat.mod_lt _ (by norm_num)
        · exact Nat.mod_lt _ (by norm_num)
        · exact Nat.mod_lt _ (by norm_num)
        · exact Nat.mod_lt _ (by norm_num)
        · simp at hb
      · exact ih b hb

theorem sha256_lt (msg : List Nat) : ∀ b ∈ sha256 msg, b < 256 := by
  intro b hb
  exact wordsToBytes_lt _ b hb

theorem hmacSha256_lt (key msg : List Nat) : ∀ b ∈ hmacSha256 key msg, b < 256 := by
  intro b hb
  exact sha256_lt _ b hb

/-! ### Sign/verify payload round trip -/

theorem b64decode_b64encode (bs : List Nat) (h : ∀ b ∈ bs, b < 256) :
    b64decode (b64encode bs) = some bs := b64d_b64e bs h

theorem verify_payload_sign_payload (key : List Nat) (payload : String) :
    verify_payload key payload (sign_payload key payload) = true := by
  unfold verify_payload sign_payload
  rw [show b64decode (b64encode (hmacSha256 key (strBytes payload))) =
      some (hmacSha256 key (strBytes payload)) from
    b64decode_b64encode _ (hmacSha256_lt key (strBytes payload))]
  simp

theorem verify_payload_false_of_ne (key : List Nat) (p2 p : String)
    (h : hmacSha256 key (strBytes p2) ≠ hmacSha256 key (strBytes p)) :
    verify_payload key p2 (sign_payload key p) = false := by
  unfold verify_payload sign_payload
  rw [show b64decode (b64encode (hmacSha256 key (strBytes p))) =
      some (hmacSha256 key (strBytes p)) from
    b64decode_b64encode _ (hmacSha256_lt key (strBytes p))]
  simpa using h

theorem verify_url_false_of_mac_ne (key : List Nat) (scope2 : AssetScope)
    (pid2 ver2 path2 : String) (exp2 : Int) (now : Int) (payload : String)
    (h : hmacSha256 key
        (strBytes (build_payload scope2 pid2 ver2 (normalize_asset_path path2) exp2)) ≠
      hmacSha256 key (strBytes payload)) :
    verify_url key scope2 pid2 ver2 path2 exp2 (sign_payload key payload) now = false := by
  unfold verify_url
  by_cases hexp : exp2 ≤ now
  · simp [hexp]
  · simp only [if_neg hexp]
    exact verify_payload_false_of_ne key _ payload h

/-! ### The canonical payload is injective in each component -/

theorem build_payload_inj_plugin {scope : AssetScope} {pid2 pid ver path : String} {exp : Int}
    (hc : build_payload scope pid2 ver path exp = build_payload scope pid ver path exp) :
    pid2 = pid := by
  have hd := congrArg String.data hc
  cases scope with
  | Global =>
      simp only [build_payload, String.data_append, List.append_assoc] at hd
      exact strTail _ (strPeel "|" (strPeel "" (strPeel "|" (strPeel "global" hd))))
  | User o s =>
      simp only [build_payload, String.data_append, List.append_assoc] at hd
      exact strTail _ (strPeel "|" (strPeel (uuidToString o) (strPeel "|" (strPeel "user" hd))))

theorem build_payload_inj_version {scope : AssetScope} {pid ver2 ver path : String} {exp : Int}
    (hc : build_payload scope pid ver2 path exp = build_payload scope pid ver path exp) :
    ver2 = ver := by
  have hd := congrArg String.data hc
  cases scope with
  | Global =>
      simp only [build_payload, String.data_append, List.append_assoc] at hd
      exact strTail _ (strPeel "|" (strPeel pid
        (strPeel "|" (strPeel "" (strPeel "|" (strPeel "global" hd))))))
  | User o s =>
      simp only [build_payload, String.data_append, List.append_assoc] at hd
      exact strTail _ (strPeel "|" (strPeel pid
        (strPeel "|" (strPeel (uuidToString o) (strPeel "|" (strPeel "user" hd))))))

theorem build_payload_inj_path {scope : AssetScope} {pid ver path2 path : String} {exp : Int}
    (hc : build_payload scope pid ver path2 exp = build_payload scope pid ver path exp) :
    path2 = path := by
  have hd := congrArg String.data hc
  cases scope with
  | Global =>
      simp only [build_payload, String.data_append, List.append_assoc] at hd
      exact strTail _ (strPeel "|" (strPeel ver (strPeel "|" (strPeel pid
        (strPeel "|" (strPeel "" (strPeel "|" (strPeel "global" hd))))))))
  | User o s =>
      simp only [build_payload, String.data_append, List.append_assoc] at hd
      exact strTail _ (strPeel "|" (strPeel ver (strPeel "|" (strPeel pid
        (strPeel "|" (strPeel (uuidToString o) (strPeel "|" (strPeel "user" hd))))))))

theorem build_payload_inj_exp {scope : AssetScope} {pid ver path : String} {exp2 exp : Int}
    (hc : build_payload scope pid ver path exp2 = build_payload scope pid ver path exp) :
    exp2 = exp := by
  have hd := congrArg String.data hc
  cases scope with
  | Global =>
      have hrepr : intRepr exp2 = intRepr exp := by
        simp only [build_payload, String.data_append, List.append_assoc] at hd
        exact strTail _ (strPeel "|" (strPeel path (strPeel "|" (strPeel ver
          (strPeel "|" (strPeel pid (strPeel "|" (strPeel ""
            (strPeel "|" (strPeel "global" hd))))))))))
      exact intRepr_inj hrepr
  | User o s =>
      have hrepr : intRepr exp2 = intRepr exp := by
        simp only [build_payload, String.data_append, List.append_assoc] at hd
        exact strTail _ (strPeel "|" (strPeel path (strPeel "|" (strPeel ver
          (strPeel "|" (strPeel pid (strPeel "|" (strPeel (uuidToString o)
            (strPeel "|" (strPeel "user" hd))))))))))
      exact intRepr_inj hrepr

theorem build_payload_inj_owner {o2 o : Uuid} {s : Option String}
    {pid ver path : String} {exp : Int}
    (hc : build_payload (AssetScope.User o2 s) pid ver path exp =
      build_payload (AssetScope.User o s) pid ver path exp) :
    o2 = o := by
  have hd := congrArg String.data hc
  simp only [build_payload, String.data_append, List.append_assoc] at hd
  exact uuidToString_inj (strTail _ (strPeel "|" (strPeel "user" hd)))

theorem build_payload_inj_share {o : Uuid} {s2 s : Option String}
    {pid ver path : String} {exp : Int}
    (hc : build_payload (AssetScope.User o s2) pid ver path exp =
      build_payload (AssetScope.User o s) pid ver path exp) :
    s2.getD "" = s.getD "" := by
  have hd := congrArg String.data hc
  simp only [build_payload, String.data_append, List.append_assoc] at hd
  exact strDataInj (strPeel "|" (strPeel (intRepr exp) (strPeel "|" (strPeel path
    (strPeel "|" (strPeel ver (strPeel "|" (strPeel pid
      (strPeel "|" (strPeel (uuidToString o) (strPeel "|" (strPeel "user" hd))))))))))))

/-! ### Expiry arithmetic -/

theorem signExpiresAt_eq {now : Int} {ttl : Nat} (hnow : 0 ≤ now) (httl : 0 < ttl)
    (hrange : now + (ttl : Int) < 2 ^ 63) : signExpiresAt now ttl = now + (ttl : Int) := by
  simp only [signExpiresAt, u64AsI64, wrapI64]
  have e1 : (2 : Int) ^ 63 = 9223372036854775808 := by norm_num
  have e2 : (2 : Int) ^ 64 = 18446744073709551616 := by norm_num
  have e3 : (2 : Nat) ^ 64 = 18446744073709551616 := by norm_num
  rw [e1] at hrange
  rw [e1, e2, e3]
  push_cast
  omega

/-! ## Claim theorems -/

/-- C1: `sign_url` followed by `verify_url` with the same scope, plugin id,
version and relative path, the minted expiry and signature, and an unchanged
clock returns `true` (for positive `ttl_secs` such that `now + ttl` stays in
the `i64` range); and changing any single payload component — plugin id,
version, normalized path, expiry, owner, or share component — changes the
canonical payload, and makes `verify_url` return `false` whenever the two
payloads have distinct HMACs. -/
theorem claim_C1 (key : List Nat) (scope : AssetScope) (pid ver path : String)
    (ttl : Nat) (now : Int)
    (pid2 ver2 path2 : String) (exp2 : Int) (owner owner2 : Uuid)
    (share share2 : Option String)
    (hnow : 0 ≤ now) (httl : 0 < ttl) (hrange : now + (ttl : Int) < 2 ^ 63)
    (hpid : pid2 ≠ pid) (hver : ver2 ≠ ver)
    (hpath : normalize_asset_path path2 ≠ normalize_asset_path path)
    (hexp : exp2 ≠ signExpiresAt now ttl)
    (howner : owner2 ≠ owner)
    (hshare : share2.getD "" ≠ share.getD "") :
    verify_url key scope pid ver path (signExpiresAt now ttl)
        (signSignature key scope pid ver path ttl now) now = true ∧
    (payloadMac key scope pid2 ver path (signExpiresAt now ttl) ≠
        payloadMac key scope pid ver path (signExpiresAt now ttl) →
      verify_url key scope pid2 ver path (signExpiresAt now ttl)
        (signSignature key scope pid ver path ttl now) now = false) ∧
    (payloadMac key scope pid ver2 path (signExpiresAt now ttl) ≠
        payloadMac key scope pid ver path (signExpiresAt now ttl) →
      verify_url key scope pid ver2 path (signExpiresAt now ttl)
        (signSignature key scope pid ver path ttl now) now = false) ∧
    (payloadMac key scope pid ver path2 (signExpiresAt now ttl) ≠
        payloadMac key scope pid ver path (signExpiresAt now ttl) →
      verify_url key scope pid ver path2 (signExpiresAt now ttl)
        (signSignature key scope pid ver path ttl now) now = false) ∧
    (payloadMac key scope pid ver path exp2 ≠
        payloadMac key scope pid ver path (signExpiresAt now ttl) →
      verify_url key scope pid ver path exp2
        (signSignature key scope pid ver path ttl now) now = false) ∧
    (payloadMac key (AssetScope.User owner2 share) pid ver path (signExpiresAt now ttl) ≠
        payloadMac key (AssetScope.User owner share) pid ver path (signExpiresAt now ttl) →
      verify_url key (AssetScope.User owner2 share) pid ver path (signExpiresAt now ttl)
        (signSignature key (AssetScope.User owner share) pid ver path ttl now) now = false) ∧
    (payloadMac key (AssetScope.User owner share2) pid ver path (signExpiresAt now ttl) ≠
        payloadMac key (AssetScope.User owner share) pid ver path (signExpiresAt now ttl) →
      verify_url key (AssetScope.User owner share2) pid ver path (signExpiresAt now ttl)
        (signSignature key (AssetScope.User owner share) pid ver path ttl now) now = false) ∧
    build_payload scope pid2 ver (normalize_asset_path path) (signExpiresAt now ttl) ≠
      build_payload scope pid ver (normalize_asset_path path) (signExpiresAt now ttl) ∧
    build_payload scope pid ver2 (normalize_asset_path path) (signExpiresAt now ttl) ≠
      build_payload scope pid ver (normalize_asset_path path) (signExpiresAt now ttl) ∧
    build_payload scope pid ver (normalize_asset_path path2) (signExpiresAt now ttl) ≠
      build_payload scope pid ver (normalize_asset_path path) (signExpiresAt now ttl) ∧
    build_payload scope pid ver (normalize_asset_path path) exp2 ≠
      build_payload scope pid ver (normalize_asset_path path) (signExpiresAt now ttl) ∧
    build_payload (AssetScope.User owner2 share) pid ver (normalize_asset_path path)
        (signExpiresAt now ttl) ≠
      build_payload (AssetScope.User owner share) pid ver (normalize_asset_path path)
        (signExpiresAt now ttl) ∧
    build_payload (AssetScope.User owner share2) pid ver (normalize_asset_path path)
        (signExpiresAt now ttl) ≠
      build_payload (AssetScope.User owner share) pid ver (normalize_asset_path path)
        (signExpiresAt now ttl) := by
  have hexpv : signExpiresAt now ttl = now + (ttl : Int) := signExpiresAt_eq hnow httl hrange
  refine ⟨?_, ?_, ?_, ?_, ?_, ?_, ?_, ?_, ?_, ?_, ?_, ?_, ?_⟩
  · unfold verify_url
    rw [if_neg (by rw [hexpv]; omega)]
    simp only [signSignature]
    exact verify_payload_sign_payload key _
  · intro hmac_pid
    simp only [payloadMac] at hmac_pid
    simp only [signSignature]
    exact verify_url_false_of_mac_ne key scope pid2 ver path _ now _ hmac_pid
  · intro hmac_ver
    simp only [payloadMac] at hmac_ver
    simp only [signSignature]
    exact verify_url_false_of_mac_ne key scope pid ver2 path _ now _ hmac_ver
  · intro hmac_path
    simp only [payloadMac] at hmac_path
    simp only [signSignature]
    exact verify_url_false_of_mac_ne key scope pid ver path2 _ now _ hmac_path
  · intro hmac_exp
    simp only [payloadMac] at hmac_exp
    simp only [signSignature]
    exact verify_url_false_of_mac_ne key scope pid ver path exp2 now _ hmac_exp
  · intro hmac_owner
    simp only [payloadMac] at hmac_owner
    simp only [signSignature]
    exact verify_url_false_of_mac_ne key (AssetScope.User owner2 share) pid ver path _ now _
      hmac_owner
  · intro hmac_share
    simp only [payloadMac] at hmac_share
    simp only [signSignature]
    exact verify_url_false_of_mac_ne key (AssetScope.User owner share2) pid ver path _ now _
      hmac_share
  · exact fun hc => hpid (build_payload_inj_plugin hc)
  · exact fun hc => hver (build_payload_inj_version hc)
  · exact fun hc => hpath (build_payload_inj_path hc)
  · exact fun hc => hexp (build_payload_inj_exp hc)
  · exact fun hc => howner (build_payload_inj_owner hc)
  · exact fun hc => hshare (build_payload_inj_share hc)

/-- C1 counterexample: the claim quantifies over every positive `ttl_secs`,
but at `ttl_secs = 2 ^ 63` the Rust `ttl_secs as i64` cast wraps to a
negative number, the minted expiry lies in the past, and `verify_url`
returns `false` even though every parameter is identical and the clock has
not advanced. -/
theorem claim_C1_counterexample :
    0 < (2 ^ 63 : Nat) ∧
    verify_url [107] AssetScope.Global "p" "1" "a" (signExpiresAt 0 (2 ^ 63))
      (signSignature [107] AssetScope.Global "p" "1" "a" (2 ^ 63) 0) 0 = false := by
  constructor
  · positivity
  · rfl

/-- C1 witness: the round trip and every single-component mutation at a
concrete key, scope, plugin, version, path, ttl and clock; the component
distinctness hypotheses are discharged by evaluation. -/
theorem claim_C1_witness :
    verify_url [107] AssetScope.Global "p" "1" "a" (signExpiresAt 0 10)
        (signSignature [107] AssetScope.Global "p" "1" "a" 10 0) 0 = true ∧
    (payloadMac [107] AssetScope.Global "q" "1" "a" (signExpiresAt 0 10) ≠
        payloadMac [107] AssetScope.Global "p" "1" "a" (signExpiresAt 0 10) →
      verify_url [107] AssetScope.Global "q" "1" "a" (signExpiresAt 0 10)
        (signSignature [107] AssetScope.Global "p" "1" "a" 10 0) 0 = false) ∧
    (payloadMac [107] AssetScope.Global "p" "2" "a" (signExpiresAt 0 10) ≠
        payloadMac [107] AssetScope.Global "p" "1" "a" (signExpiresAt 0 10) →
      verify_url [107] AssetScope.Global "p" "2" "a" (signExpiresAt 0 10)
        (signSignature [107] AssetScope.Global "p" "1" "a" 10 0) 0 = false) ∧
    (payloadMac [107] AssetScope.Global "p" "1" "b" (signExpiresAt 0 10) ≠
        payloadMac [107] AssetScope.Global "p" "1" "a" (signExpiresAt 0 10) →
      verify_url [107] AssetScope.Global "p" "1" "b" (signExpiresAt 0 10)
        (signSignature [107] AssetScope.Global "p" "1" "a" 10 0) 0 = false) ∧
    (payloadMac [107] AssetScope.Global "p" "1" "a" 5 ≠
        payloadMac [107] AssetScope.Global "p" "1" "a" (signExpiresAt 0 10) →
      verify_url [107] AssetScope.Global "p" "1" "a" 5
        (signSignature [107] AssetScope.Global "p" "1" "a" 10 0) 0 = false) ∧
    (payloadMac [107] (AssetScope.User ⟨2, by norm_num⟩ none) "p" "1" "a"
          (signExpiresAt 0 10) ≠
        payloadMac [107] (AssetScope.User ⟨1, by norm_num⟩ none) "p" "1" "a"
          (signExpiresAt 0 10) →
      verify_url [107] (AssetScope.User ⟨2, by norm_num⟩ none) "p" "1" "a" (signExpiresAt 0 10)
        (signSignature [107] (AssetScope.User ⟨1, by norm_num⟩ none) "p" "1" "a" 10 0) 0 =
        false) ∧
    (payloadMac [107] (AssetScope.User ⟨1, by norm_num⟩ (some "s")) "p" "1" "a"
          (signExpiresAt 0 10) ≠
        payloadMac [107] (AssetScope.User ⟨1, by norm_num⟩ none) "p" "1" "a"
          (signExpiresAt 0 10) →
      verify_url [107] (AssetScope.User ⟨1, by norm_num⟩ (some "s")) "p" "1" "a"
          (signExpiresAt 0 10)
        (signSignature [107] (AssetScope.User ⟨1, by norm_num⟩ none) "p" "1" "a" 10 0) 0 =
        false) ∧
    build_payload AssetScope.Global "q" "1" (normalize_asset_path "a") (signExpiresAt 0 10) ≠
      build_payload AssetScope.Global "p" "1" (normalize_asset_path "a") (signExpiresAt 0 10) ∧
    build_payload AssetScope.Global "p" "2" (normalize_asset_path "a") (signExpiresAt 0 10) ≠
      build_payload AssetScope.Global "p" "1" (normalize_asset_path "a") (signExpiresAt 0 10) ∧
    build_payload AssetScope.Global "p" "1" (normalize_asset_path "b") (signExpiresAt 0 10) ≠
      build_payload AssetScope.Global "p" "1" (normalize_asset_path "a") (signExpiresAt 0 10) ∧
    build_payload AssetScope.Global "p" "1" (normalize_asset_path "a") 5 ≠
      build_payload AssetScope.Global "p" "1" (normalize_asset_path "a") (signExpiresAt 0 10) ∧
    build_payload (AssetScope.User ⟨2, by norm_num⟩ none) "p" "1" (normalize_asset_path "a")
        (signExpiresAt 0 10) ≠
      build_payload (AssetScope.User ⟨1, by norm_num⟩ none) "p" "1" (normalize_asset_path "a")
        (signExpiresAt 0 10) ∧
    build_payload (AssetScope.User ⟨1, by norm_num⟩ (some "s")) "p" "1"
        (normalize_asset_path "a") (signExpiresAt 0 10) ≠
      build_payload (AssetScope.User ⟨1, by norm_num⟩ none) "p" "1" (normalize_asset_path "a")
        (signExpiresAt 0 10) :=
  claim_C1 [107] AssetScope.Global "p" "1" "a" 10 0 "q" "2" "b" 5
    ⟨1, by norm_num⟩ ⟨2, by norm_num⟩ none (some "s")
    (by norm_num) (by norm_num) (by norm_num)
    (by decide) (by decide) (by decide) (by decide) (by decide) (by decide)

/-- C8: `verify_url` returns `false` whenever `expires_at ≤ now`, regardless
of the signature, and returns `false` whenever the signature fails to decode
as base64url without padding. -/
theorem claim_C8 (key : List Nat) (scope : AssetScope) (pid ver path : String)
    (exp : Int) (sig : String) (now : Int) :
    (exp ≤ now → verify_url key scope pid ver path exp sig now = false) ∧
    (b64decode sig = none → verify_url key scope pid ver path exp sig now = false) := by
  constructor
  · intro h
    simp [verify_url, h]
  · intro h
    by_cases hexp : exp ≤ now
    · simp [verify_url, hexp]
    · simp [verify_url, hexp, verify_payload, h]

/-- C8 witness: an already-expired URL and a non-base64url signature are both
rejected at concrete inputs. -/
theorem claim_C8_witness :
    ((0 : Int) ≤ 0 ∧ verify_url [107] AssetScope.Global "p" "1" "a" 0 "sig" 0 = false) ∧
    (b64decode "!" = none ∧ verify_url [107] AssetScope.Global "p" "1" "a" 5 "!" 0 = false) := by
  refine ⟨⟨le_refl 0, (claim_C8 [107] AssetScope.Global "p" "1" "a" 0 "sig" 0).1 (le_refl 0)⟩,
    ⟨by decide, (claim_C8 [107] AssetScope.Global "p" "1" "a" 5 "!" 0).2 (by decide)⟩⟩

theorem isPrefixOf_append {α : Type} [BEq α] [LawfulBEq α] (p rest : List α) :
    p.isPrefixOf (p ++ rest) = true := by
  induction p with
  | nil => simp [List.isPrefixOf]
  | cons a as ih => simp [List.isPrefixOf, ih]

/-- C2 (amended): `sign_url`'s step-1 normalization trims the path, strips
repeated `./` prefixes and leading `/` characters, but never rejects — a
signed URL is produced for every relative path.  The rejection of paths that
contain `..` or `\` or normalize to the empty string is performed by
`normalize_manifest_path` in the HTTP layer: it returns the stripped path
only when none of those conditions hold, and `None` whenever one does. -/
theorem claim_C2 (key : List Nat) (scope : AssetScope) (pid ver path : String)
    (ttl : Nat) (now : Int) (raw np : String) :
    List.isPrefixOf "/api/plugin-assets?scope=".data
        (sign_url key scope pid ver path ttl now).data = true ∧
    (normalize_manifest_path raw = some np →
      np.data = dropLeadingSlashes (stripDotSlashes (trimChars raw.data)) ∧
      np.data ≠ [] ∧
      hasInfixChars "..".data np.data = false ∧
      np.data.all (fun c => !(c == '\\')) = true) ∧
    (((dropLeadingSlashes (stripDotSlashes (trimChars raw.data))).isEmpty ||
        hasInfixChars "..".data (dropLeadingSlashes (stripDotSlashes (trimChars raw.data))) ||
        (dropLeadingSlashes (stripDotSlashes (trimChars raw.data))).any
          (fun c => c == '\\')) = true →
      normalize_manifest_path raw = none) := by
  refine ⟨?_, ?_, ?_⟩
  · cases scope with
    | Global =>
        simp only [sign_url, String.data_append, List.append_assoc]
        exact isPrefixOf_append _ _
    | User o s =>
        simp only [sign_url, String.data_append, List.append_assoc]
        exact isPrefixOf_append _ _
  · intro h
    simp only [normalize_manifest_path] at h
    by_cases hc : ((dropLeadingSlashes (stripDotSlashes (trimChars raw.data))).isEmpty ||
        hasInfixChars "..".data (dropLeadingSlashes (stripDotSlashes (trimChars raw.data))) ||
        (dropLeadingSlashes (stripDotSlashes (trimChars raw.data))).any
          (fun c => c == '\\')) = true
    · rw [if_pos hc] at h
      exact absurd h (by simp)
    · rw [if_neg hc] at h
      have hnp : np = String.mk (dropLeadingSlashes (stripDotSlashes (trimChars raw.data))) :=
        (Option.some.injEq _ _ ▸ h).symm
      subst hnp
      simp only [Bool.or_eq_true, not_or, Bool.not_eq_true] at hc
      refine ⟨rfl, ?_, hc.1.2, ?_⟩
      · intro hempty
        have hL : dropLeadingSlashes (stripDotSlashes (trimChars raw.data)) = [] := hempty
        rw [hL] at hc
        simp at hc
      · rw [List.all_eq_true]
        intro c hcmem
        have := hc.2
        rw [List.any_eq_false] at this
        simpa using this c hcmem
  · intro h
    simp only [normalize_manifest_path]
    rw [if_pos h]

/-- C2 counterexample: the claim as stated says `sign_url` produces no
signed URL for a path containing `..`, but the signer's normalization keeps
`..` and a full signed URL is minted. -/
theorem claim_C2_counterexample :
    normalize_asset_path ".." = ".." ∧
    List.isPrefixOf "/api/plugin-assets?scope=".data
      (sign_url [107] AssetScope.Global "p" "1" ".." 10 0).data = true := by
  refine ⟨rfl, ?_⟩
  simp only [sign_url, String.data_append, List.append_assoc]
  exact isPrefixOf_append _ _

/-- C2 witness: a URL is minted for a concrete path, `a/..` is rejected by
the manifest normalizer, and an accepted path is `..`-free, `\`-free and
non-empty. -/
theorem claim_C2_witness :
    List.isPrefixOf "/api/plugin-assets?scope=".data
        (sign_url [107] AssetScope.Global "p" "1" "x" 10 0).data = true ∧
    normalize_manifest_path "a/.." = none ∧
    ("a/b".data = dropLeadingSlashes (stripDotSlashes (trimChars "a/b".data)) ∧
      "a/b".data ≠ [] ∧
      hasInfixChars "..".data "a/b".data = false ∧
      "a/b".data.all (fun c => !(c == '\\')) = true) :=
  ⟨(claim_C2 [107] AssetScope.Global "p" "1" "x" 10 0 "" "").1,
    (claim_C2 [107] AssetScope.Global "p" "1" "x" 10 0 "a/.." "").2.2 (by decide),
    (claim_C2 [107] AssetScope.Global "p" "1" "x" 10 0 "a/b" "a/b").2.1 (by decide)⟩

theorem pruneUpdatesBeforeStore_snapshots (c : Int) (st : PersistState) :
    (pruneUpdatesBeforeStore c st).snapshots = st.snapshots := rfl

theorem clearUpdatesStore_snapshots (st : PersistState) :
    (clearUpdatesStore st).snapshots = st.snapshots := rfl

theorem persistMaintenance_snapshots_subset (opts : SnapshotPersistOptions)
    (st : PersistState) : ∀ e ∈ (persistMaintenance opts st).snapshots, e ∈ st.snapshots := by
  intro e he
  unfold persistMaintenance at he
  rcases hpu : opts.prune_updates_before with _ | cutoff <;> rw [hpu] at he <;>
    [skip; rw [pruneUpdatesBeforeStore_snapshots] at he] <;>
  rcases hps : opts.prune_snapshots with _ | keep <;> rw [hps] at he <;>
  by_cases hcu : opts.clear_updates <;> simp only [hcu, if_true, if_false] at he <;>
  first
  | exact he
  | (rw [clearUpdatesStore_snapshots] at he; exact he)
  | (simp only [pruneSnapshotsStore, clearUpdatesStore_snapshots] at he ⊢
     exact List.mem_of_mem_filter he)
  | (simp only [pruneSnapshotsStore] at he ⊢
     exact List.mem_of_mem_filter he)

/-- C3: with `skip_if_unchanged` set and the fresh encoding equal to the
latest stored snapshot, `persist_snapshot` inserts nothing, returns
`persisted = false` with the current latest version, and still applies the
requested maintenance (`clear_updates`, `prune_snapshots`,
`prune_updates_before`, in that order); otherwise it persists the encoding at
`current_version + 1`, applies the same maintenance afterwards, and returns
`persisted = true` with the new version. -/
theorem claim_C3 (enc : List Nat) (opts : SnapshotPersistOptions) (st : PersistState)
    (v : Int) (b : List Nat) :
    (opts.skip_if_unchanged = true → latestSnapshotEntry st = some (v, enc) →
      persist_snapshot enc opts st = (persistMaintenance opts st, ⟨v, enc, false⟩) ∧
      (persist_snapshot enc opts st).2.persisted = false ∧
      (persist_snapshot enc opts st).2.version = v ∧
      ∀ e ∈ (persist_snapshot enc opts st).1.snapshots, e ∈ st.snapshots) ∧
    (opts.skip_if_unchanged = false →
      persist_snapshot enc opts st =
        (persistMaintenance opts
            (persistSnapshotStore ((latestSnapshotVersion st).getD 0 + 1) enc st),
          ⟨(latestSnapshotVersion st).getD 0 + 1, enc, true⟩)) ∧
    (opts.skip_if_unchanged = true → latestSnapshotEntry st = some (v, b) → b ≠ enc →
      persist_snapshot enc opts st =
        (persistMaintenance opts (persistSnapshotStore (v + 1) enc st), ⟨v + 1, enc, true⟩)) ∧
    (opts.skip_if_unchanged = true → latestSnapshotEntry st = none →
      persist_snapshot enc opts st =
        (persistMaintenance opts (persistSnapshotStore 1 enc st), ⟨1, enc, true⟩)) := by
  refine ⟨?_, ?_, ?_, ?_⟩
  · intro hskip hentry
    have heq : persist_snapshot enc opts st = (persistMaintenance opts st, ⟨v, enc, false⟩) := by
      simp [persist_snapshot, hskip, hentry]
    refine ⟨heq, by rw [heq], by rw [heq], ?_⟩
    rw [heq]
    exact persistMaintenance_snapshots_subset opts st
  · intro hskip
    simp [persist_snapshot, hskip]
  · intro hskip hentry hne
    simp [persist_snapshot, hskip, hentry, hne]
  · intro hskip hentry
    simp [persist_snapshot, hskip, hentry]

/-- C3 witness: on a concrete store whose latest snapshot equals the fresh
encoding, the skip branch reports `persisted = false` at the current version;
on a changed encoding the persist branch bumps the version. -/
theorem claim_C3_witness :
    (persist_snapshot [1, 2] ⟨false, true, none, some 2⟩ ⟨[(1, [7])], [(1, [1, 2])]⟩).2.persisted
        = false ∧
    (persist_snapshot [1, 2] ⟨false, true, none, some 2⟩ ⟨[(1, [7])], [(1, [1, 2])]⟩).2.version
        = 1 ∧
    (persist_snapshot [1, 2, 3] ⟨false, false, none, none⟩
        ⟨[(1, [7])], [(1, [1, 2])]⟩).2.persisted = true ∧
    (persist_snapshot [1, 2, 3] ⟨false, false, none, none⟩
        ⟨[(1, [7])], [(1, [1, 2])]⟩).2.version = 2 := by
  refine ⟨?_, ?_, ?_, ?_⟩
  · exact ((claim_C3 [1, 2] ⟨false, true, none, some 2⟩ ⟨[(1, [7])], [(1, [1, 2])]⟩ 1
      []).1 rfl rfl).2.1
  · exact ((claim_C3 [1, 2] ⟨false, true, none, some 2⟩ ⟨[(1, [7])], [(1, [1, 2])]⟩ 1
      []).1 rfl rfl).2.2.1
  · have h := (claim_C3 [1, 2, 3] ⟨false, false, none, none⟩ ⟨[(1, [7])], [(1, [1, 2])]⟩ 0
      []).2.1 rfl
    rw [h]
  · have h := (claim_C3 [1, 2, 3] ⟨false, false, none, none⟩ ⟨[(1, [7])], [(1, [1, 2])]⟩ 0
      []).2.1 rfl
    rw [h]
    rfl

/-- C4 (amended): whenever the persistence pipeline assigns a seq that is a
multiple of 100, the auto-archive interval is positive, and the interval has
elapsed since the last auto-archive (or none happened yet), the pipeline
persists a snapshot with `clear_updates = false` (the appended update stays
in the log) and appends an archive record with kind `"auto"` and label
`"Snapshot " ++ ts`; with interval `0` auto-archiving is disabled entirely. -/
theorem claim_C4 (cfg : HubPersistConfig) (enc : List Nat) (now : Nat) (ts : String)
    (st : HubDocState) (bytes : List Nat)
    (hint : cfg.auto_archive_interval ≠ 0)
    (hmod : (st.seq + 1) % 100 = 0)
    (helapsed : ∀ last, st.last_auto_archive = some last →
      cfg.auto_archive_interval ≤ now - last) :
    (hubProcessUpdate cfg enc now ts st bytes).archives =
      st.archives ++
        [⟨(persist_snapshot enc { clear_updates := false }
              (appendUpdateStore (st.seq + 1) bytes st.persist)).2.version,
          "Snapshot " ++ ts, none, "auto", none, (enc.length : Int), sha256_hex enc, enc⟩] ∧
    (hubProcessUpdate cfg enc now ts st bytes).persist =
      (persist_snapshot enc { clear_updates := false }
        (appendUpdateStore (st.seq + 1) bytes st.persist)).1 ∧
    (hubProcessUpdate cfg enc now ts st bytes).persist.updates =
      st.persist.updates ++ [(st.seq + 1, bytes)] ∧
    (hubProcessUpdate cfg enc now ts st bytes).seq = st.seq + 1 ∧
    (hubProcessUpdate cfg enc now ts st bytes).last_auto_archive = some now := by
  have hcond : ((st.seq + 1) % 100 == 0 && decide (cfg.auto_archive_interval ≠ 0)) = true := by
    simp [hmod, hint]
  have hshould :
      (match st.last_auto_archive with
        | some last => !(now - last < cfg.auto_archive_interval)
        | none => true) = true := by
    rcases hla : st.last_auto_archive with _ | last
    · rfl
    · have := helapsed last hla
      simp
      omega
  have hstep : hubProcessUpdate cfg enc now ts st bytes =
      { seq := st.seq + 1,
        persist := (persist_snapshot enc { clear_updates := false }
          (appendUpdateStore (st.seq + 1) bytes st.persist)).1,
        archives := (archive_snapshot
          (persist_snapshot enc { clear_updates := false }
            (appendUpdateStore (st.seq + 1) bytes st.persist)).2.snapshot_bytes
          (persist_snapshot enc { clear_updates := false }
            (appendUpdateStore (st.seq + 1) bytes st.persist)).2.version
          ("Snapshot " ++ ts) none SnapshotArchiveKind.Automatic none st.archives).1,
        last_auto_archive := some now } := by
    rw [hubProcessUpdate]
    rw [if_pos hcond, hshould, if_pos rfl]
  have hbytes : (persist_snapshot enc { clear_updates := false }
      (appendUpdateStore (st.seq + 1) bytes st.persist)).2.snapshot_bytes = enc := by
    simp [persist_snapshot]
  have hpersist : (persist_snapshot enc { clear_updates := false }
      (appendUpdateStore (st.seq + 1) bytes st.persist)).1.updates =
      st.persist.updates ++ [(st.seq + 1, bytes)] := by
    simp [persist_snapshot, persistMaintenance, persistSnapshotStore, appendUpdateStore]
  refine ⟨?_, ?_, ?_, ?_, ?_⟩
  · rw [hstep]
    simp [archive_snapshot, SnapshotArchiveKind.as_str, hbytes]
  · rw [hstep]
  · rw [hstep]
    exact hpersist
  · rw [hstep]
  · rw [hstep]

theorem hubProcessUpdate_interval_zero (enc : List Nat) (now : Nat) (ts : String)
    (st : HubDocState) (bytes : List Nat) :
    hubProcessUpdate ⟨0⟩ enc now ts st bytes =
      { st with
          seq := st.seq + 1
          persist := appendUpdateStore (st.seq + 1) bytes st.persist } := by
  simp [hubProcessUpdate]

theorem hubRunUpdates_interval_zero (enc : List Nat) (now : Nat) (ts : String) :
    ∀ (updates : List (List Nat)) (st : HubDocState),
      (hubRunUpdates ⟨0⟩ enc now ts st updates).archives = st.archives ∧
      (hubRunUpdates ⟨0⟩ enc now ts st updates).seq = st.seq + updates.length := by
  intro updates
  induction updates with
  | nil => intro st; simp [hubRunUpdates]
  | cons u us ih =>
      intro st
      constructor
      · calc (hubRunUpdates ⟨0⟩ enc now ts st (u :: us)).archives
            = (hubRunUpdates ⟨0⟩ enc now ts
                (hubProcessUpdate ⟨0⟩ enc now ts st u) us).archives := rfl
          _ = (hubProcessUpdate ⟨0⟩ enc now ts st u).archives := (ih _).1
          _ = st.archives := by rw [hubProcessUpdate_interval_zero]
      · calc (hubRunUpdates ⟨0⟩ enc now ts st (u :: us)).seq
            = (hubRunUpdates ⟨0⟩ enc now ts
                (hubProcessUpdate ⟨0⟩ enc now ts st u) us).seq := rfl
          _ = (hubProcessUpdate ⟨0⟩ enc now ts st u).seq + us.length := (ih _).2
          _ = st.seq + (u :: us).length := by
              rw [hubProcessUpdate_interval_zero]
              simp
              omega

/-- C4 counterexample: the claim includes the configuration `interval = 0s`
with archives expected at seq 100 and seq 200, but the pipeline requires a
non-zero interval (`!auto_archive_interval.is_zero()`): pushing 200 updates
with interval `0` produces no archive at all. -/
theorem claim_C4_counterexample :
    (hubRunUpdates ⟨0⟩ [9] 0 "2024-01-01 00:00:00 UTC" ⟨0, ⟨[], []⟩, [], none⟩
      (List.replicate 200 [1])).archives = [] ∧
    (hubRunUpdates ⟨0⟩ [9] 0 "2024-01-01 00:00:00 UTC" ⟨0, ⟨[], []⟩, [], none⟩
      (List.replicate 200 [1])).seq = 200 := by
  have h := hubRunUpdates_interval_zero [9] 0 "2024-01-01 00:00:00 UTC"
    (List.replicate 200 [1]) ⟨0, ⟨[], []⟩, [], none⟩
  refine ⟨h.1, ?_⟩
  rw [h.2]
  simp only [List.length_replicate]
  norm_num

/-- C4 witness: with interval 1, no previous auto-archive, and the 100th
update arriving, the pipeline emits an automatic archive labelled from the
timestamp while the appended update stays in the log. -/
theorem claim_C4_witness :
    (hubProcessUpdate ⟨1⟩ [9] 5 "T" ⟨99, ⟨[], []⟩, [], none⟩ [1]).archives =
      [] ++
        [⟨(persist_snapshot [9] { clear_updates := false }
              (appendUpdateStore (99 + 1) [1] ⟨[], []⟩)).2.version,
          "Snapshot " ++ "T", none, "auto", none, ((9 :: List.nil).length : Int),
          sha256_hex [9], [9]⟩] ∧
    (hubProcessUpdate ⟨1⟩ [9] 5 "T" ⟨99, ⟨[], []⟩, [], none⟩ [1]).persist =
      (persist_snapshot [9] { clear_updates := false }
        (appendUpdateStore (99 + 1) [1] ⟨[], []⟩)).1 ∧
    (hubProcessUpdate ⟨1⟩ [9] 5 "T" ⟨99, ⟨[], []⟩, [], none⟩ [1]).persist.updates =
      ([] : List (Int × List Nat)) ++ [(99 + 1, [1])] ∧
    (hubProcessUpdate ⟨1⟩ [9] 5 "T" ⟨99, ⟨[], []⟩, [], none⟩ [1]).seq = 99 + 1 ∧
    (hubProcessUpdate ⟨1⟩ [9] 5 "T" ⟨99, ⟨[], []⟩, [], none⟩ [1]).last_auto_archive = some 5 :=
  claim_C4 ⟨1⟩ [9] 5 "T" ⟨99, ⟨[], []⟩, [], none⟩ [1] (by decide) (by decide)
    (fun last h => Option.noConfusion h)

/-- C5: when `editable = true` every inbound frame passes the edit guard;
when `editable = false` a frame whose decoding contains a sync-update or
sync-step-2 message is dropped and never forwarded, frames that decode
without such a message (awareness-only frames included) pass through, and
frames that fail to decode pass through. -/
theorem claim_C5 (frame : List Nat) (s : FrameSummary) (e : Unit)
    (items : List (Except Unit (List Nat))) (f : List Nat) :
    guardPasses true frame = true ∧
    guardFilter true items = items ∧
    (analyse_frame frame = Except.ok s → s.has_update = true →
      guardPasses false frame = false) ∧
    (analyse_frame frame = Except.ok s → s.has_update = false →
      guardPasses false frame = true) ∧
    (analyse_frame frame = Except.error e → guardPasses false frame = true) ∧
    (Except.ok f ∈ guardFilter false items →
      ∀ t, analyse_frame f = Except.ok t → t.has_update = false) := by
  refine ⟨rfl, ?_, ?_, ?_, ?_, ?_⟩
  · apply List.filter_eq_self.mpr
    intro it _
    cases it <;> rfl
  · intro ha hu
    simp [guardPasses, ha, hu]
  · intro ha hu
    simp [guardPasses, ha, hu]
  · intro ha
    simp [guardPasses, ha]
  · intro hmem t ht
    have hp := (List.mem_filter.mp hmem).2
    simp only [guardPasses, ht] at hp
    simpa using hp

/-- C5 witness: a sync-update frame is dropped under `editable = false`
while an awareness frame and an undecodable frame pass, everything passes
under `editable = true`, and the guarded stream never forwards the update
frame. -/
theorem claim_C5_witness :
    guardPasses true [0, 2, 1, 0] = true ∧
    guardPasses false [0, 2, 1, 0] = false ∧
    guardPasses false [1, 4, 1, 1, 1, 0] = true ∧
    guardPasses false [1, 5, 1, 1, 1, 1, 255] = true ∧
    guardFilter false [Except.ok [0, 2, 1, 0], Except.ok [1, 4, 1, 1, 1, 0],
        Except.error (), Except.ok [1, 5, 1, 1, 1, 1, 255]] =
      [Except.ok [1, 4, 1, 1, 1, 0], Except.error (), Except.ok [1, 5, 1, 1, 1, 1, 255]] := by
  refine ⟨(claim_C5 [0, 2, 1, 0] ⟨true, false⟩ () [] []).1, ?_, ?_, ?_, by decide⟩
  · exact (claim_C5 [0, 2, 1, 0] ⟨true, false⟩ () [] []).2.2.1 (by decide) rfl
  · exact (claim_C5 [1, 4, 1, 1, 1, 0] ⟨false, true⟩ () [] []).2.2.2.1 (by decide) rfl
  · exact (claim_C5 [1, 5, 1, 1, 1, 1, 255] ⟨false, false⟩ () [] []).2.2.2.2.1 (by decide)

theorem lookup_map_replace {κ ν : Type} [BEq κ] [LawfulBEq κ] (l : List (κ × ν)) (k : κ)
    (v : ν) (h : (l.lookup k).isSome = true) :
    (l.map fun e => if e.1 == k then (k, v) else e).lookup k = some v := by
  induction l with
  | nil => simp [List.lookup] at h
  | cons q ps ih =>
      by_cases hpk : q.1 = k
      · have hb : (q.1 == k) = true := by simp [hpk]
        simp only [List.map_cons]
        rw [if_pos hb]
        simp [List.lookup]
      · have h1 : (q.1 == k) = false := beq_eq_false_iff_ne.mpr hpk
        have h2 : (k == q.1) = false := beq_eq_false_iff_ne.mpr (fun he => hpk he.symm)
        simp only [List.lookup, h2] at h
        simp only [List.map_cons]
        rw [if_neg (show ¬((q.1 == k) = true) by simp [h1])]
        simp only [List.lookup, h2]
        exact ih h

theorem lookup_append_single {κ ν : Type} [BEq κ] [LawfulBEq κ] (l : List (κ × ν)) (k : κ)
    (v : ν) (h : l.lookup k = none) : (l ++ [(k, v)]).lookup k = some v := by
  induction l with
  | nil => simp [List.lookup]
  | cons q ps ih =>
      by_cases h2 : (k == q.1) = true
      · simp [List.lookup, h2] at h
      · have h2f : (k == q.1) = false := by
          cases hb : (k == q.1)
          · rfl
          · exact absurd hb h2
        simp only [List.lookup, h2f] at h
        simp [List.lookup, h2f, ih h]

theorem lookup_upsert {κ ν : Type} [BEq κ] [LawfulBEq κ] (l : List (κ × ν)) (k : κ) (v : ν) :
    (upsert l k v).lookup k = some v := by
  unfold upsert
  by_cases h : (l.lookup k).isSome
  · rw [if_pos h]
    exact lookup_map_replace l k v h
  · rw [if_neg h]
    refine lookup_append_single l k v ?_
    cases hl : l.lookup k
    · rfl
    · rw [hl] at h
      exact absurd rfl h

theorem apply_ops_result (current text : List Char) :
    ((if current.length ≠ 0 then [TextOp.remove 0 current.length] else []) ++
      (if text.isEmpty then [] else [TextOp.insert 0 text])).foldl applyTextOp current =
      text := by
  by_cases h1 : current.length ≠ 0 <;> by_cases h2 : text.isEmpty <;>
    simp_all [applyTextOp, List.drop_length, List.isEmpty_iff, List.length_eq_zero]

/-- C6: `apply_snapshot` deletes the entire content range and inserts the
source text at offset 0 in one transaction, so a subsequent `get_content`
returns exactly the source text; the encoded update is empty — and nothing
is broadcast — exactly when both the room text and the source text are
empty. -/
theorem claim_C6 (hub : HubRooms) (doc_id : String) (snapshotText : List Char) :
    get_content (apply_snapshot hub doc_id snapshotText).1 doc_id = some snapshotText ∧
    ((apply_snapshot hub doc_id snapshotText).2 = none ↔
      (hub.rooms.lookup doc_id).getD [] = [] ∧ snapshotText = []) := by
  constructor
  · show (upsert hub.rooms doc_id _).lookup doc_id = _
    rw [lookup_upsert, apply_ops_result]
  · show (if _ then _ else _) = none ↔ _
    by_cases h1 : ((hub.rooms.lookup doc_id).getD []).length ≠ 0 <;>
      by_cases h2 : snapshotText.isEmpty <;>
      simp_all [List.isEmpty_iff, List.length_eq_zero]

/-- C6 witness: replacing a live room's text with new text makes
`get_content` return the new text, and the degenerate empty-to-empty
replacement broadcasts nothing. -/
theorem claim_C6_witness :
    get_content (apply_snapshot ⟨[("d", "old".data)]⟩ "d" "new".data).1 "d" =
      some "new".data ∧
    (apply_snapshot ⟨[]⟩ "d" []).2 = none :=
  ⟨(claim_C6 ⟨[("d", "old".data)]⟩ "d" "new".data).1,
    (claim_C6 ⟨[]⟩ "d" []).2.mpr ⟨rfl, rfl⟩⟩

theorem write_markdown_eq (doc_id : Uuid) (contents : String) (st : StorageState)
    (record : DocRecord) (hrec : st.record = some record)
    (hftb : (record.doc_type == "folder") = false) :
    write_markdown doc_id contents st =
      ({ st with
          files :=
            if (match st.files.lookup st.docPath with
                | some existing => !(existing == mdFileContents doc_id record.title contents)
                | none => true) then
              upsert st.files st.docPath (mdFileContents doc_id record.title contents)
            else st.files
          linkEvents :=
            (match record.owner_id with
              | some owner => (st.linkEvents ++ [(owner, contents)],
                  st.tagEvents ++ [(owner, contents)])
              | none => (st.linkEvents, st.tagEvents)).1
          tagEvents :=
            (match record.owner_id with
              | some owner => (st.linkEvents ++ [(owner, contents)],
                  st.tagEvents ++ [(owner, contents)])
              | none => (st.linkEvents, st.tagEvents)).2 },
        (match st.files.lookup st.docPath with
          | some existing => !(existing == mdFileContents doc_id record.title contents)
          | none => true)) := by
  unfold write_markdown
  rw [hrec]
  dsimp only
  rw [if_neg (show ¬((record.doc_type == "folder") = true) by rw [hftb]; exact
    Bool.false_ne_true)]

set_option maxHeartbeats 4000000 in
theorem write_markdown_unfold (doc_id : Uuid) (contents : String) (st : StorageState)
    (record : DocRecord) (hrec : st.record = some record)
    (hft : ¬ record.doc_type = "folder") :
    (write_markdown doc_id contents st).1.files.lookup st.docPath =
      some (mdFileContents doc_id record.title contents) ∧
    (∀ existing, st.files.lookup st.docPath = some existing →
      (write_markdown doc_id contents st).2 =
        !(existing == mdFileContents doc_id record.title contents)) ∧
    (st.files.lookup st.docPath = none → (write_markdown doc_id contents st).2 = true) ∧
    (write_markdown doc_id contents st).1.record = st.record ∧
    (write_markdown doc_id contents st).1.docPath = st.docPath ∧
    ((write_markdown doc_id contents st).2 = false →
      (write_markdown doc_id contents st).1.files = st.files) := by
  have hftb : (record.doc_type == "folder") = false := beq_eq_false_iff_ne.mpr hft
  rw [write_markdown_eq doc_id contents st record hrec hftb]
  refine ⟨?_, ?_, ?_, rfl, rfl, ?_⟩
  · cases hlook : st.files.lookup st.docPath with
    | none =>
        show (upsert st.files st.docPath (mdFileContents doc_id record.title contents)).lookup
          st.docPath = _
        exact lookup_upsert _ _ _
    | some existing =>
        by_cases hme : existing = mdFileContents doc_id record.title contents
        · have hb : (existing == mdFileContents doc_id record.title contents) = true := by
            simp [hme]
          dsimp only
          rw [hb]
          simp only [Bool.not_true, Bool.false_eq_true, if_false]
          rw [hlook, hme]
        · have hb : (existing == mdFileContents doc_id record.title contents) = false :=
            beq_eq_false_iff_ne.mpr hme
          dsimp only
          rw [hb]
          simp only [Bool.not_false, if_pos]
          exact lookup_upsert _ _ _
  · intro existing he
    show (match st.files.lookup st.docPath with
        | some existing => !(existing == mdFileContents doc_id record.title contents)
        | none => true) = _
    rw [he]
  · intro he
    show (match st.files.lookup st.docPath with
        | some existing => !(existing == mdFileContents doc_id record.title contents)
        | none => true) = _
    rw [he]
  · intro hw
    have hcond : (match st.files.lookup st.docPath with
        | some existing => !(existing == mdFileContents doc_id record.title contents)
        | none => true) = false := hw
    show (if (match st.files.lookup st.docPath with
        | some existing => !(existing == mdFileContents doc_id record.title contents)
        | none => true) = true then
        upsert st.files st.docPath (mdFileContents doc_id record.title contents)
      else st.files) = st.files
    rw [if_neg (show ¬(match st.files.lookup st.docPath with
        | some existing => !(existing == mdFileContents doc_id record.title contents)
        | none => true) = true from by rw [hcond]; exact Bool.false_ne_true)]

/-- C7: markdown materialization computes the file bytes deterministically
from the document id, title and contents (front matter plus body with a
trailing newline appended when absent), reads the existing file, writes only
when the bytes differ (and always when no file exists yet), and a second
materialization with no content change performs no write and leaves the file
system unchanged. -/
theorem claim_C7 (doc_id : Uuid) (contents : String) (st : StorageState) (record : DocRecord)
    (hrec : st.record = some record) (hft : ¬ record.doc_type = "folder") :
    (write_markdown doc_id contents st).1.files.lookup st.docPath =
      some (mdFileContents doc_id record.title contents) ∧
    (∀ existing, st.files.lookup st.docPath = some existing →
      (write_markdown doc_id contents st).2 =
        !(existing == mdFileContents doc_id record.title contents)) ∧
    (st.files.lookup st.docPath = none → (write_markdown doc_id contents st).2 = true) ∧
    (st.files.lookup st.docPath = some (mdFileContents doc_id record.title contents) →
      (write_markdown doc_id contents st).2 = false) ∧
    (write_markdown doc_id contents (write_markdown doc_id contents st).1).2 = false ∧
    (write_markdown doc_id contents (write_markdown doc_id contents st).1).1.files =
      (write_markdown doc_id contents st).1.files := by
  obtain ⟨h1, h2, h3, h4, h5, h6⟩ := write_markdown_unfold doc_id contents st record hrec hft
  have hrec1 : (write_markdown doc_id contents st).1.record = some record := by
    rw [h4, hrec]
  obtain ⟨g1, g2, g3, g4, g5, g6⟩ :=
    write_markdown_unfold doc_id contents (write_markdown doc_id contents st).1 record hrec1 hft
  have hlook1 : (write_markdown doc_id contents st).1.files.lookup
      (write_markdown doc_id contents st).1.docPath =
      some (mdFileContents doc_id record.title contents) := by
    rw [h5]
    exact h1
  have hwritten2 : (write_markdown doc_id contents (write_markdown doc_id contents st).1).2 =
      false := by
    rw [g2 (mdFileContents doc_id record.title contents) hlook1, beq_self_eq_true]
    rfl
  refine ⟨h1, h2, h3, ?_, hwritten2, g6 hwritten2⟩
  intro hsame
  rw [h2 (mdFileContents doc_id record.title contents) hsame, beq_self_eq_true]
  rfl

/-- C7 witness: materializing a concrete non-folder document writes the
formatted file, and a second materialization with unchanged content reports
`written = false` and leaves the files untouched. -/
theorem claim_C7_witness :
    (write_markdown ⟨5, by norm_num⟩ "hello"
        ⟨some ⟨"T", "doc", none⟩, "p.md", [], [], []⟩).1.files.lookup "p.md" =
      some (mdFileContents ⟨5, by norm_num⟩ "T" "hello") ∧
    (write_markdown ⟨5, by norm_num⟩ "hello"
        (write_markdown ⟨5, by norm_num⟩ "hello"
          ⟨some ⟨"T", "doc", none⟩, "p.md", [], [], []⟩).1).2 = false ∧
    (write_markdown ⟨5, by norm_num⟩ "hello"
        (write_markdown ⟨5, by norm_num⟩ "hello"
          ⟨some ⟨"T", "doc", none⟩, "p.md", [], [], []⟩).1).1.files =
      (write_markdown ⟨5, by norm_num⟩ "hello"
        ⟨some ⟨"T", "doc", none⟩, "p.md", [], [], []⟩).1.files :=
  ⟨(claim_C7 ⟨5, by norm_num⟩ "hello" ⟨some ⟨"T", "doc", none⟩, "p.md", [], [], []⟩
      ⟨"T", "doc", none⟩ rfl (by decide)).1,
    (claim_C7 ⟨5, by norm_num⟩ "hello" ⟨some ⟨"T", "doc", none⟩, "p.md", [], [], []⟩
      ⟨"T", "doc", none⟩ rfl (by decide)).2.2.2.2.1,
    (claim_C7 ⟨5, by norm_num⟩ "hello" ⟨some ⟨"T", "doc", none⟩, "p.md", [], [], []⟩
      ⟨"T", "doc", none⟩ rfl (by decide)).2.2.2.2.2⟩

/-- C9: the canonical payload fed to the HMAC is exactly the pipe-delimited
join of scope tag, owner, plugin id, version, normalized path, expiry and
share token; for `Global` the owner and share components are empty strings,
and for `User` the share component is present (as the empty string) even
when no share token is given. -/
theorem claim_C9 (pid ver path : String) (exp : Int) (o : Uuid) (s : Option String) :
    build_payload AssetScope.Global pid ver path exp =
      joinPipe ["global", "", pid, ver, path, intRepr exp, ""] ∧
    build_payload (AssetScope.User o s) pid ver path exp =
      joinPipe ["user", uuidToString o, pid, ver, path, intRepr exp, s.getD ""] ∧
    build_payload (AssetScope.User o none) pid ver path exp =
      joinPipe ["user", uuidToString o, pid, ver, path, intRepr exp, ""] := by
  refine ⟨?_, ?_, ?_⟩ <;>
  · apply strDataInj
    simp [build_payload, joinPipe, String.data_append, List.append_assoc]

theorem get_plugin_asset_ok_shape (key : List Nat) (now : Int) (globalRoot : List String)
    (userRoot : Uuid → List String) (params : AssetQuery) (p : List String)
    (h : get_plugin_asset key now globalRoot userRoot params = Except.ok p) :
    ∃ raw np pid ver,
      params.path = some raw ∧
      params.plugin = some pid ∧
      params.version = some ver ∧
      normalize_manifest_path raw = some np ∧
      (splitChar '/' np.data).map String.mk ≠ [] ∧
      (∀ s ∈ (splitChar '/' np.data).map String.mk, is_safe_asset_segment s = true) ∧
      ((p = globalRoot ++ [pid, ver] ++ (splitChar '/' np.data).map String.mk ∧
          (globalRoot ++ [pid, ver]).isPrefixOf p = true) ∨
        (∃ o, p = userRoot o ++ [pid, ver] ++ (splitChar '/' np.data).map String.mk ∧
          (userRoot o ++ [pid, ver]).isPrefixOf p = true)) := by
  unfold get_plugin_asset at h
  split at h
  · exact Except.noConfusion h
  next scope_raw hscope =>
  split at h
  · exact Except.noConfusion h
  next plugin_id hplugin =>
  split at h
  · exact Except.noConfusion h
  next u1 hvid =>
  split at h
  · exact Except.noConfusion h
  next version hversion =>
  split at h
  · exact Except.noConfusion h
  next u2 hvv =>
  split at h
  · exact Except.noConfusion h
  next path hpath =>
  split at h
  · exact Except.noConfusion h
  next normalized_path hnorm =>
  split at h
  · exact Except.noConfusion h
  next exp hexp =>
  split at h
  · exact Except.noConfusion h
  next exp_i64 hexpi =>
  split at h
  · exact Except.noConfusion h
  next sig hsig =>
  split at h
  · exact Except.noConfusion h
  next scopeOwner hscopeOwner =>
  split at h
  rotate_left
  · exact Except.noConfusion h
  next hverify =>
  rcases hso : scopeOwner.2 with _ | owner_id
  · simp only [hso] at h
    split at h
    rotate_left
    · exact Except.noConfusion h
    next hsegs =>
    split at h
    · exact Except.noConfusion h
    next hne =>
    split at h
    rotate_left
    · exact Except.noConfusion h
    next hpre =>
    refine ⟨path, normalized_path, plugin_id, version, hpath, hplugin, hversion, hnorm,
      ?_, ?_, ?_⟩
    · intro hq
      exact hne (by rw [hq]; rfl)
    · intro s hs
      exact List.all_eq_true.mp hsegs s hs
    · left
      have hp : p = globalRoot ++ [plugin_id, version] ++
          (splitChar '/' normalized_path.data).map String.mk := (Except.ok.inj h).symm
      exact ⟨hp, by rw [hp]; exact isPrefixOf_append _ _⟩
  · simp only [hso] at h
    split at h
    rotate_left
    · exact Except.noConfusion h
    next hsegs =>
    split at h
    · exact Except.noConfusion h
    next hne =>
    split at h
    rotate_left
    · exact Except.noConfusion h
    next hpre =>
    refine ⟨path, normalized_path, plugin_id, version, hpath, hplugin, hversion, hnorm,
      ?_, ?_, ?_⟩
    · intro hq
      exact hne (by rw [hq]; rfl)
    · intro s hs
      exact List.all_eq_true.mp hsegs s hs
    · right
      have hp : p = userRoot owner_id ++ [plugin_id, version] ++
          (splitChar '/' normalized_path.data).map String.mk := (Except.ok.inj h).symm
      exact ⟨owner_id, hp, by rw [hp]; exact isPrefixOf_append _ _⟩

/-- C10: whenever the plugin-asset handler reaches its single file read, the
requested path survived `normalize_manifest_path`, every `/`-separated
segment is safe (`is_safe_asset_segment`), and the read path is the plugin
version's base directory extended by exactly those segments (hence inside
the base directory); whenever the normalization rejects the requested path,
the handler answers with an error status and never reaches the read. -/
theorem claim_C10 (key : List Nat) (now : Int) (globalRoot : List String)
    (userRoot : Uuid → List String) (params : AssetQuery) (p : List String) :
    (get_plugin_asset key now globalRoot userRoot params = Except.ok p →
      ∃ raw np pid ver,
        params.path = some raw ∧
        params.plugin = some pid ∧
        params.version = some ver ∧
        normalize_manifest_path raw = some np ∧
        (splitChar '/' np.data).map String.mk ≠ [] ∧
        (∀ s ∈ (splitChar '/' np.data).map String.mk, is_safe_asset_segment s = true) ∧
        ((p = globalRoot ++ [pid, ver] ++ (splitChar '/' np.data).map String.mk ∧
            (globalRoot ++ [pid, ver]).isPrefixOf p = true) ∨
          (∃ o, p = userRoot o ++ [pid, ver] ++ (splitChar '/' np.data).map String.mk ∧
            (userRoot o ++ [pid, ver]).isPrefixOf p = true))) ∧
    (∀ raw, params.path = some raw → normalize_manifest_path raw = none →
      ∃ e, get_plugin_asset key now globalRoot userRoot params = Except.error e) := by
  constructor
  · exact get_plugin_asset_ok_shape key now globalRoot userRoot params p
  · intro raw hraw hnone
    rcases hres : get_plugin_asset key now globalRoot userRoot params with e | q
    · exact ⟨e, rfl⟩
    · exfalso
      obtain ⟨raw2, np, pid, ver, hraw2, _, _, hnorm2, _, _, _⟩ :=
        get_plugin_asset_ok_shape key now globalRoot userRoot params q hres
      rw [hraw] at hraw2
      obtain rfl : raw = raw2 := Option.some.inj hraw2
      rw [hnone] at hnorm2
      exact Option.noConfusion hnorm2

/-- A concrete query for the handler: global scope, plugin `p`, version `1`,
path `a`, expiry `9`, signed with key byte `107` at `now = 0`, `ttl = 9`. -/
def c10Params : AssetQuery :=
  { scope := some "global"
    plugin := some "p"
    version := some "1"
    path := some "a"
    exp := some "9"
    sig := some (signSignature [107] AssetScope.Global "p" "1" "a" 9 0)
    owner := none
    share := none }

/-- The same query with a traversal path, which normalization rejects. -/
def c10BadParams : AssetQuery :=
  { c10Params with path := some ".." }

set_option maxRecDepth 100000 in
set_option maxHeartbeats 4000000 in
theorem claim_C10_witness :
    (∃ raw np pid ver,
        c10Params.path = some raw ∧
        c10Params.plugin = some pid ∧
        c10Params.version = some ver ∧
        normalize_manifest_path raw = some np ∧
        (splitChar '/' np.data).map String.mk ≠ [] ∧
        (∀ s ∈ (splitChar '/' np.data).map String.mk, is_safe_asset_segment s = true) ∧
        ((["plugins", "p", "1", "a"] =
              ["plugins"] ++ [pid, ver] ++ (splitChar '/' np.data).map String.mk ∧
            (["plugins"] ++ [pid, ver]).isPrefixOf ["plugins", "p", "1", "a"] = true) ∨
          (∃ o, ["plugins", "p", "1", "a"] =
              (fun (_ : Uuid) => ["users"]) o ++ [pid, ver] ++
                (splitChar '/' np.data).map String.mk ∧
            ((fun (_ : Uuid) => ["users"]) o ++ [pid, ver]).isPrefixOf
              ["plugins", "p", "1", "a"] = true))) ∧
    (∃ e, get_plugin_asset [107] 0 ["plugins"] (fun _ => ["users"]) c10BadParams =
      Except.error e) := by
  constructor
  · exact (claim_C10 [107] 0 ["plugins"] (fun _ => ["users"]) c10Params
      ["plugins", "p", "1", "a"]).1 (by decide)
  · exact (claim_C10 [107] 0 ["plugins"] (fun _ => ["users"]) c10BadParams
      ["plugins", "p", "1", "a"]).2 ".." rfl (by decide)

end RefMd
